import Mathlib

/-!
Verification development for the tiny-adnl ADNL node core.

The Rust sources are embedded shallowly: pure functions become Lean
functions over `Nat`-coded bytes and identifiers, stateful methods become
explicit state passing over a `NodeState` record, fallible code returns
`Except`.  Machine integers are modelled as `Nat` with an explicit
`% 256` where a `u8` can overflow.  Randomness (ephemeral keys, nonces)
is threaded as explicit parameters, and the cryptographic primitives
(sha256, x25519 ECDH, the AES-CTR packet cipher, ed25519 signatures) are
abstracted as function-valued parameters, with only the algebraic
properties the code relies on assumed as hypotheses.
-/

set_option maxRecDepth 20000

namespace TinyAdnl

/-! ## Association lists standing in for the `FxDashMap` tables

The node keeps its peer/channel tables in hash maps with unique keys.
They are modelled as association lists: `aset` inserts or replaces,
`adel` deletes, `aupd` overwrites only when the key is present (used to
model mutation of a value shared behind an `Arc`). -/

def alookup {β : Type} : List (Nat × β) → Nat → Option β
  | [], _ => none
  | kv :: rest, k => if kv.1 = k then some kv.2 else alookup rest k

def aset {β : Type} (m : List (Nat × β)) (k : Nat) (v : β) : List (Nat × β) :=
  (k, v) :: m.filter (fun kv => kv.1 != k)

def adel {β : Type} (m : List (Nat × β)) (k : Nat) : List (Nat × β) :=
  m.filter (fun kv => kv.1 != k)

def aupd {β : Type} (m : List (Nat × β)) (k : Nat) (v : β) : List (Nat × β) :=
  match alookup m k with
  | some _ => aset m k v
  | none => m

theorem alookup_filter_ne {β : Type} (m : List (Nat × β)) (k k' : Nat) (h : k' ≠ k) :
    alookup (m.filter (fun kv => kv.1 != k)) k' = alookup m k' := by
  induction m with
  | nil => rfl
  | cons kv rest ih =>
    rw [List.filter_cons]
    by_cases hk : kv.1 = k
    · rw [if_neg (by simp [hk]), ih]
      simp [alookup, hk, Ne.symm h]
    · rw [if_pos (by simp [hk])]
      simp [alookup, ih]

theorem alookup_filter_self {β : Type} (m : List (Nat × β)) (k : Nat) :
    alookup (m.filter (fun kv => kv.1 != k)) k = none := by
  induction m with
  | nil => rfl
  | cons kv rest ih =>
    rw [List.filter_cons]
    by_cases hk : kv.1 = k
    · rw [if_neg (by simp [hk])]; exact ih
    · rw [if_pos (by simp [hk])]
      simp [alookup, hk, ih]

theorem alookup_aset {β : Type} (m : List (Nat × β)) (k k' : Nat) (v : β) :
    alookup (aset m k v) k' = if k = k' then some v else alookup m k' := by
  by_cases h : k = k'
  · simp [aset, alookup, h]
  · simp only [aset, alookup, if_neg h]
    exact alookup_filter_ne m k k' (Ne.symm h)

theorem alookup_aset_self {β : Type} (m : List (Nat × β)) (k : Nat) (v : β) :
    alookup (aset m k v) k = some v := by
  rw [alookup_aset, if_pos rfl]

theorem alookup_adel {β : Type} (m : List (Nat × β)) (k k' : Nat) :
    alookup (adel m k) k' = if k = k' then none else alookup m k' := by
  by_cases h : k = k'
  · subst h
    rw [if_pos rfl]
    exact alookup_filter_self m k
  · rw [if_neg h]
    exact alookup_filter_ne m k k' (Ne.symm h)

end TinyAdnl

namespace TinyAdnl.Buckets

/-! ## DHT buckets (`src/dht_node/buckets.rs`)

Keys are 32-byte arrays, modelled as length-32 lists of naturals below
256. -/

/-- The nibble table from `src/dht_node/buckets.rs`: `BITS[x]` is the number of
leading zero bits of the 4-bit value `x`. -/
def BITS : List Nat := [4, 3, 2, 2, 1, 1, 1, 1, 0, 0, 0, 0, 0, 0, 0, 0]

/-- The `else` branch of the per-byte match in `get_affinity`: the number of
leading zero bits of the xor byte `z` (for `z ≠ 0`), looked up through `BITS`. -/
def lzByte (z : Nat) : Nat :=
  if z &&& 0xf0 = 0 then BITS.getD (z &&& 0x0f) 0 + 4 else BITS.getD (z >>> 4) 0

/-- The loop of `get_affinity`, accumulating the exact (unwrapped) bit count:
8 per equal byte, and the leading-zero count of the first differing xor byte. -/
def affinityCount : List Nat → List Nat → Nat
  | x :: xs, y :: ys =>
    let z := x ^^^ y
    if z = 0 then 8 + affinityCount xs ys else lzByte z
  | _, _ => 0

/-- The function `get_affinity` from `src/dht_node/buckets.rs`.  The Rust
accumulator is a `u8`, so the returned value wraps modulo 256; the only sum
that can exceed 255 is the all-bytes-equal case (32 × 8 = 256). -/
def get_affinity (key1 key2 : List Nat) : Nat :=
  affinityCount key1 key2 % 256

/-- One entry of a DHT routing table bucket.  `proto::dht::NodeOwned` is
outside the embedded sources; only its `version` field is inspected by
`Buckets::insert`, the rest is abstracted into `payload`. -/
structure DhtNode where
  version : Nat
  payload : Nat
  deriving DecidableEq

/-- The per-bucket entry update of `Buckets::insert`: an occupied entry is
replaced only by a strictly newer version, a vacant entry is inserted. -/
def insertEntry : List (List Nat × DhtNode) → List Nat → DhtNode → List (List Nat × DhtNode)
  | [], peerId, peer => [(peerId, peer)]
  | kv :: rest, peerId, peer =>
    if kv.1 = peerId then
      (if kv.2.version < peer.version then (peerId, peer) else kv) :: rest
    else kv :: insertEntry rest peerId peer

/-- The 256 buckets of the DHT routing table, indexed by affinity. -/
def BucketsT : Type := Nat → List (List Nat × DhtNode)

/-- The method `Buckets::insert` from `src/dht_node/buckets.rs`: the peer is
filed into the bucket indexed by `get_affinity(local_id, peer_id)`. -/
def insert (bk : BucketsT) (local_id peer_id : List Nat) (peer : DhtNode) : BucketsT :=
  let affinity := get_affinity local_id peer_id
  fun i => if i = affinity then insertEntry (bk i) peer_id peer else bk i

/-! ### Specification-side definitions for C9 -/

/-- The bits of a byte, most significant first. -/
def byteBits (x : Nat) : List Bool :=
  (List.range 8).map (fun i => x.testBit (7 - i))

/-- The length of the longest common prefix of two bit strings. -/
def commonPrefixLen : List Bool → List Bool → Nat
  | a :: as, b :: bs => if a = b then 1 + commonPrefixLen as bs else 0
  | _, _ => 0

/-- The number of leading bits shared by two byte strings (bytes taken most
significant bit first). -/
def sharedLeadingBits (a b : List Nat) : Nat :=
  commonPrefixLen (a.flatMap byteBits) (b.flatMap byteBits)

/-- The number of leading `false` entries of a bit string. -/
def leadZeros : List Bool → Nat
  | b :: bs => if b then 0 else 1 + leadZeros bs
  | [] => 0

theorem commonPrefixLen_eq_leadZeros :
    ∀ as bs : List Bool, commonPrefixLen as bs = leadZeros (List.zipWith (· != ·) as bs) := by
  intro as
  induction as with
  | nil => intro bs; cases bs <;> rfl
  | cons a as ih =>
    intro bs
    cases bs with
    | nil => rfl
    | cons b bs =>
      simp only [commonPrefixLen, List.zipWith, leadZeros]
      cases a <;> cases b <;> simp [ih]

theorem zipWith_bne_map {l : List Nat} (f g : Nat → Bool) :
    List.zipWith (· != ·) (l.map f) (l.map g) = l.map (fun i => f i != g i) := by
  induction l with
  | nil => rfl
  | cons x xs ih => simp [List.zipWith, ih]

theorem zipWith_bne_byteBits (x y : Nat) :
    List.zipWith (· != ·) (byteBits x) (byteBits y) = byteBits (x ^^^ y) := by
  simp only [byteBits, zipWith_bne_map]
  apply List.map_congr_left
  intro i _
  simp [Nat.testBit_xor]

theorem commonPrefixLen_byteBits (x y : Nat) :
    commonPrefixLen (byteBits x) (byteBits y) = leadZeros (byteBits (x ^^^ y)) := by
  rw [commonPrefixLen_eq_leadZeros, zipWith_bne_byteBits]

/-- Per-byte table check: for a byte-sized xor value, the leading-zero count
of its bit string agrees with the table lookup of the source, and is below 8
for nonzero values. -/
theorem byte_table : ∀ z : Fin 256,
    (leadZeros (byteBits (z : Nat)) = if (z : Nat) = 0 then 8 else lzByte (z : Nat))
    ∧ ((z : Nat) ≠ 0 → lzByte (z : Nat) < 8) := by decide

theorem commonPrefixLen_self : ∀ l : List Bool, commonPrefixLen l l = l.length := by
  intro l
  induction l with
  | nil => rfl
  | cons a as ih => simp [commonPrefixLen, ih, Nat.add_comm]

theorem byteBits_length (x : Nat) : (byteBits x).length = 8 := by
  simp [byteBits]

theorem commonPrefixLen_cons (a b : Bool) (as bs : List Bool) :
    commonPrefixLen (a :: as) (b :: bs) = if a = b then 1 + commonPrefixLen as bs else 0 := rfl

theorem commonPrefixLen_append (l₁ l₂ r₁ r₂ : List Bool) (h : l₁.length = l₂.length) :
    commonPrefixLen (l₁ ++ r₁) (l₂ ++ r₂) =
      if l₁ = l₂ then l₁.length + commonPrefixLen r₁ r₂ else commonPrefixLen l₁ l₂ := by
  induction l₁ generalizing l₂ with
  | nil =>
    cases l₂ with
    | nil => simp [commonPrefixLen]
    | cons b bs => simp at h
  | cons a as ih =>
    cases l₂ with
    | nil => simp at h
    | cons b bs =>
      simp only [List.length_cons, Nat.succ.injEq] at h
      rw [List.cons_append, List.cons_append, commonPrefixLen_cons]
      by_cases hab : a = b
      · rw [if_pos hab, ih bs h]
        by_cases hl : as = bs
        · rw [if_pos hl, if_pos (by rw [hab, hl]), List.length_cons]
          omega
        · rw [if_neg hl, if_neg (fun hc : a :: as = b :: bs => hl (by injection hc)),
            commonPrefixLen_cons, if_pos hab]
      · rw [if_neg hab, if_neg (fun hc : a :: as = b :: bs => hab (by injection hc)),
          commonPrefixLen_cons, if_neg hab]

theorem affinityCount_eq_sharedLeadingBits :
    ∀ a b : List Nat, a.length = b.length → (∀ x ∈ a, x < 256) → (∀ y ∈ b, y < 256) →
      affinityCount a b = sharedLeadingBits a b := by
  intro a
  induction a with
  | nil =>
    intro b hlen _ _
    cases b with
    | nil => rfl
    | cons y ys => simp at hlen
  | cons x xs ih =>
    intro b hlen ha hb
    cases b with
    | nil => simp at hlen
    | cons y ys =>
      simp only [List.length_cons, Nat.succ.injEq] at hlen
      have hx : x < 256 := ha x (List.mem_cons_self ..)
      have hy : y < 256 := hb y (List.mem_cons_self ..)
      have hz : x ^^^ y < 256 := Nat.xor_lt_two_pow (n := 8) hx hy
      simp only [sharedLeadingBits, List.flatMap_cons]
      rw [commonPrefixLen_append _ _ _ _ (by rw [byteBits_length, byteBits_length])]
      simp only [affinityCount]
      by_cases hxy : x ^^^ y = 0
      · have hxeqy : x = y := Nat.xor_eq_zero.mp hxy
        subst hxeqy
        rw [if_pos hxy, if_pos rfl, byteBits_length]
        rw [ih ys hlen (fun a ha' => ha a (List.mem_cons_of_mem _ ha'))
          (fun a ha' => hb a (List.mem_cons_of_mem _ ha'))]
        rfl
      · have hlz : commonPrefixLen (byteBits x) (byteBits y) = lzByte (x ^^^ y) := by
          rw [commonPrefixLen_byteBits]
          have h1 : leadZeros (byteBits (x ^^^ y)) =
              if x ^^^ y = 0 then 8 else lzByte (x ^^^ y) := (byte_table ⟨x ^^^ y, hz⟩).1
          rw [h1, if_neg hxy]
        have hne : byteBits x ≠ byteBits y := by
          intro hcontra
          have h8 : commonPrefixLen (byteBits x) (byteBits y) = 8 := by
            rw [hcontra, commonPrefixLen_self, byteBits_length]
          have hlt : lzByte (x ^^^ y) < 8 := (byte_table ⟨x ^^^ y, hz⟩).2 hxy
          omega
        rw [if_neg hxy, if_neg hne, hlz]

theorem affinityCount_comm : ∀ a b : List Nat, affinityCount a b = affinityCount b a := by
  intro a
  induction a with
  | nil => intro b; cases b <;> rfl
  | cons x xs ih =>
    intro b
    cases b with
    | nil => rfl
    | cons y ys => simp only [affinityCount, Nat.xor_comm y x, ih ys]

theorem sharedLeadingBits_self (a : List Nat) (ha : a.length = 32) :
    sharedLeadingBits a a = 256 := by
  rw [sharedLeadingBits, commonPrefixLen_self, List.length_flatMap]
  have h1 : a.map (List.length ∘ byteBits) = a.map (fun _ => 8) :=
    List.map_congr_left (fun x _ => byteBits_length x)
  rw [h1, List.map_const', List.sum_const_nat, ha]

theorem affinityCount_self (a : List Nat) : affinityCount a a = 8 * a.length := by
  induction a with
  | nil => rfl
  | cons x xs ih => simp [affinityCount, ih]; ring

theorem affinityCount_lt_of_ne :
    ∀ a b : List Nat, a ≠ b → a.length = b.length → (∀ x ∈ a, x < 256) → (∀ y ∈ b, y < 256) →
      affinityCount a b < 8 * a.length := by
  intro a
  induction a with
  | nil =>
    intro b hne hlen _ _
    cases b with
    | nil => exact absurd rfl hne
    | cons y ys => simp at hlen
  | cons x xs ih =>
    intro b hne hlen ha hb
    cases b with
    | nil => simp at hlen
    | cons y ys =>
      simp only [List.length_cons, Nat.succ.injEq] at hlen
      simp only [affinityCount, List.length_cons]
      by_cases hxy : x ^^^ y = 0
      · have hxeqy : x = y := Nat.xor_eq_zero.mp hxy
        subst hxeqy
        have hxsys : xs ≠ ys := fun hcontra => hne (by rw [hcontra])
        have := ih ys hxsys hlen (fun a ha' => ha a (List.mem_cons_of_mem _ ha'))
          (fun a ha' => hb a (List.mem_cons_of_mem _ ha'))
        rw [if_pos hxy]
        omega
      · rw [if_neg hxy]
        have hx : x < 256 := ha x (List.mem_cons_self ..)
        have hy : y < 256 := hb y (List.mem_cons_self ..)
        have hz : x ^^^ y < 256 := Nat.xor_lt_two_pow (n := 8) hx hy
        have hlt : lzByte (x ^^^ y) < 8 := (byte_table ⟨x ^^^ y, hz⟩).2 hxy
        omega

theorem insertEntry_mem_keys (m : List (List Nat × DhtNode)) (peerId : List Nat)
    (peer : DhtNode) : peerId ∈ (insertEntry m peerId peer).map Prod.fst := by
  induction m with
  | nil => simp [insertEntry]
  | cons kv rest ih =>
    simp only [insertEntry]
    by_cases hk : kv.1 = peerId
    · rw [if_pos hk]
      by_cases hv : kv.2.version < peer.version
      · simp [hv]
      · simp [hv, hk]
    · rw [if_neg hk]
      simp only [List.map_cons, List.mem_cons]
      exact Or.inr ih

/-- C9 (amended): for 32-byte keys, `get_affinity` returns the number of
leading bits the two keys share, reduced modulo 256 because the Rust
accumulator is a `u8`.  For distinct keys this is the shared-leading-bit
count itself; it is symmetric; for equal keys the count 256 wraps to 0
(not 256).  `Buckets::insert` files the peer into the bucket indexed by
this affinity and leaves every other bucket unchanged. -/
theorem c9_get_affinity (a b : List Nat) (ha : a.length = 32) (hb : b.length = 32)
    (ha' : ∀ x ∈ a, x < 256) (hb' : ∀ y ∈ b, y < 256) :
    get_affinity a b = sharedLeadingBits a b % 256
    ∧ get_affinity a b = get_affinity b a
    ∧ (a ≠ b → get_affinity a b = sharedLeadingBits a b)
    ∧ (a = b → sharedLeadingBits a b = 256 ∧ get_affinity a b = 0)
    ∧ (∀ (bk : BucketsT) (peer : DhtNode) (i : Nat), i ≠ get_affinity a b →
        insert bk a b peer i = bk i)
    ∧ (∀ (bk : BucketsT) (peer : DhtNode),
        b ∈ (insert bk a b peer (get_affinity a b)).map Prod.fst) := by
  have hlen : a.length = b.length := by rw [ha, hb]
  have hcount : affinityCount a b = sharedLeadingBits a b :=
    affinityCount_eq_sharedLeadingBits a b hlen ha' hb'
  refine ⟨by rw [get_affinity, hcount], ?_, ?_, ?_, ?_, ?_⟩
  · rw [get_affinity, get_affinity, affinityCount_comm]
  · intro hne
    have hlt : affinityCount a b < 8 * a.length := affinityCount_lt_of_ne a b hne hlen ha' hb'
    rw [ha] at hlt
    rw [get_affinity, hcount, ← hcount]
    exact Nat.mod_eq_of_lt (by omega)
  · intro heq
    subst heq
    refine ⟨sharedLeadingBits_self a ha, ?_⟩
    rw [get_affinity, affinityCount_self, ha]
  · intro bk peer i hi
    simp only [insert]
    rw [if_neg hi]
  · intro bk peer
    simp only [insert, if_pos trivial]
    exact insertEntry_mem_keys _ b peer

/-- C9 witness: the claim theorem applied at two concrete 32-byte keys. -/
theorem c9_get_affinity_witness :
    get_affinity (List.replicate 32 0) (1 :: List.replicate 31 0) =
      sharedLeadingBits (List.replicate 32 0) (1 :: List.replicate 31 0) % 256 :=
  (c9_get_affinity (List.replicate 32 0) (1 :: List.replicate 31 0)
    (by decide) (by decide) (by decide) (by decide)).1

/-- C9 counterexample: the claim as stated requires `get_affinity a a = 256`,
but on equal keys the `u8` accumulator wraps: the shared-leading-bit count is
256 while `get_affinity` returns 0. -/
theorem c9_get_affinity_counterexample :
    get_affinity (List.replicate 32 0) (List.replicate 32 0) = 0
    ∧ sharedLeadingBits (List.replicate 32 0) (List.replicate 32 0) = 256
    ∧ get_affinity (List.replicate 32 0) (List.replicate 32 0) ≠ 256 := by decide

end TinyAdnl.Buckets

namespace TinyAdnl.Handshake

/-! ## Handshake codec (`src/utils/handshake.rs`)

Byte strings are lists of naturals.  The cryptographic primitives are
abstracted into a `Crypto` record: `sha256` is the digest, `pubkey`
derives the ed25519 verification key from a signing key, `sharedSecret`
models `compute_shared_secret` (the x25519 ECDH between a private and a
public key), and `keystream` models applying
`build_packet_cipher(shared_secret, checksum)` to a byte string
(AES-CTR, hence length preserving and an involution).  The claims assume
of these only the properties the code itself relies on. -/

structure Crypto where
  sha256 : List Nat → List Nat
  pubkey : List Nat → List Nat
  sharedSecret : List Nat → List Nat → List Nat
  keystream : List Nat → List Nat → List Nat → List Nat

inductive HandshakeError where
  | badHandshakePacketLength
  | badHandshakePacketChecksum
  deriving DecidableEq

/-- The function `build_handshake_packet`: prepend the 96-byte header
(recipient short id, fresh ephemeral public key, sha256 of the body) and
encrypt the body with the cipher derived from the ECDH shared secret and the
checksum.  The fresh ephemeral signing key drawn inside the function is the
explicit parameter `temp_private_key`; `peer_id_full` is the recipient's
ed25519 public key. -/
def build_handshake_packet (C : Crypto) (peer_id : List Nat) (peer_id_full : List Nat)
    (temp_private_key : List Nat) (buffer : List Nat) : List Nat :=
  let checksum := C.sha256 buffer
  let shared_secret := C.sharedSecret temp_private_key peer_id_full
  peer_id ++ C.pubkey temp_private_key ++ checksum ++ C.keystream shared_secret checksum buffer

/-- The end of the encrypted data range in `parse_handshake_packet`:
`96..(96 + data_length)` when an explicit length is requested, the whole
tail otherwise. -/
def parseDataEnd (data_length : Option Nat) (buffer : List Nat) : Nat :=
  match data_length with
  | some d => 96 + d
  | none => buffer.length

/-- The in-place decryption step of `parse_handshake_packet`: the keystream
derived from ECDH(local private key, sender ephemeral at bytes 32..64) and
the checksum at bytes 64..96 is applied to `buffer[96..dataEnd]`, the rest
of the buffer is left as is. -/
def handshakeDecrypt (C : Crypto) (priv : List Nat) (buffer : List Nat)
    (dataEnd : Nat) : List Nat :=
  let shared_secret := C.sharedSecret priv ((buffer.drop 32).take 32)
  let checksum := (buffer.drop 64).take 32
  buffer.take 96 ++ C.keystream shared_secret checksum ((buffer.drop 96).take (dataEnd - 96))
    ++ buffer.drop dataEnd

/-- The function `parse_handshake_packet`.  `keys` is the keystore map from
short id to the stored private key; the result carries the matched short id
(if any) together with the buffer as left behind (the 96-byte prefix is
stripped on success). -/
def parse_handshake_packet (C : Crypto) (keys : List (List Nat × List Nat))
    (buffer : List Nat) (data_length : Option Nat) :
    Except HandshakeError (Option (List Nat) × List Nat) :=
  if buffer.length < 96 + data_length.getD 0 then
    .error .badHandshakePacketLength
  else
    let dataEnd := parseDataEnd data_length buffer
    match keys.find? (fun kv => kv.1 == buffer.take 32) with
    | none => .ok (none, buffer)
    | some kv =>
      let decrypted := handshakeDecrypt C kv.2 buffer dataEnd
      if C.sha256 (decrypted.drop 96) == (buffer.drop 64).take 32 then
        .ok (some kv.1, decrypted.drop 96)
      else
        .error .badHandshakePacketChecksum

theorem take_append_len {α : Type} (l₁ l₂ : List α) (n : Nat) (h : l₁.length = n) :
    (l₁ ++ l₂).take n = l₁ := by
  subst h
  rw [List.take_append_of_le_length (Nat.le_refl _), List.take_length]

theorem drop_append_len {α : Type} (l₁ l₂ : List α) (n : Nat) (h : l₁.length = n) :
    (l₁ ++ l₂).drop n = l₂ := by
  subst h
  rw [List.drop_append_of_le_length (Nat.le_refl _), List.drop_length, List.nil_append]

/-- C2: for any body `B` and recipient key `K`, parsing the built handshake
packet against a key set containing `K` returns `K`'s short id and leaves
exactly `B` in the buffer, and parsing it against a key set with no matching
key returns `Ok(None)` without error.  The hypotheses are exactly the
properties of the real primitives the code relies on: digests and the
ephemeral public key are 32 bytes, the packet cipher preserves length and is
an involution, and ECDH yields the same shared secret on both sides. -/
theorem c2_handshake_roundtrip (C : Crypto) (shortK privK pubK temp_priv B : List Nat)
    (hshort : shortK.length = 32)
    (hpub : (C.pubkey temp_priv).length = 32)
    (hsha : ∀ d, (C.sha256 d).length = 32)
    (hks_len : ∀ s c d, (C.keystream s c d).length = d.length)
    (hks_inv : ∀ s c d, C.keystream s c (C.keystream s c d) = d)
    (hdh : C.sharedSecret temp_priv pubK = C.sharedSecret privK (C.pubkey temp_priv)) :
    parse_handshake_packet C [(shortK, privK)]
        (build_handshake_packet C shortK pubK temp_priv B) none
      = .ok (some shortK, B)
    ∧ ∀ keys : List (List Nat × List Nat), (∀ kv ∈ keys, kv.1 ≠ shortK) →
        parse_handshake_packet C keys
            (build_handshake_packet C shortK pubK temp_priv B) none
          = .ok (none, build_handshake_packet C shortK pubK temp_priv B) := by
  have hbuf : build_handshake_packet C shortK pubK temp_priv B
      = shortK ++ (C.pubkey temp_priv ++ (C.sha256 B
          ++ C.keystream (C.sharedSecret temp_priv pubK) (C.sha256 B) B)) := by
    simp only [build_handshake_packet, List.append_assoc]
  have len_ck : (C.sha256 B).length = 32 := hsha B
  have len_enc : (C.keystream (C.sharedSecret temp_priv pubK) (C.sha256 B) B).length
      = B.length := hks_len _ _ _
  have len_buf : (build_handshake_packet C shortK pubK temp_priv B).length
      = 96 + B.length := by
    rw [hbuf]
    simp only [List.length_append, hshort, hpub, len_ck, len_enc]
    omega
  have hguard : ¬ (build_handshake_packet C shortK pubK temp_priv B).length
      < 96 + (none : Option Nat).getD 0 := by
    rw [len_buf]
    simp
  have htake32 : (build_handshake_packet C shortK pubK temp_priv B).take 32 = shortK := by
    rw [hbuf]
    exact take_append_len _ _ _ hshort
  have hdrop32take : ((build_handshake_packet C shortK pubK temp_priv B).drop 32).take 32
      = C.pubkey temp_priv := by
    rw [hbuf, drop_append_len _ _ _ hshort]
    exact take_append_len _ _ _ hpub
  have hdrop64take : ((build_handshake_packet C shortK pubK temp_priv B).drop 64).take 32
      = C.sha256 B := by
    rw [hbuf, ← List.append_assoc]
    rw [drop_append_len _ _ _ (by rw [List.length_append, hshort, hpub])]
    exact take_append_len _ _ _ len_ck
  have hdrop96 : (build_handshake_packet C shortK pubK temp_priv B).drop 96
      = C.keystream (C.sharedSecret temp_priv pubK) (C.sha256 B) B := by
    rw [hbuf, ← List.append_assoc, ← List.append_assoc]
    exact drop_append_len _ _ _
      (by simp only [List.length_append, hshort, hpub, len_ck])
  have htake_enc : ((build_handshake_packet C shortK pubK temp_priv B).drop 96).take
      (parseDataEnd none (build_handshake_packet C shortK pubK temp_priv B) - 96)
      = C.keystream (C.sharedSecret temp_priv pubK) (C.sha256 B) B := by
    rw [hdrop96, parseDataEnd, len_buf, Nat.add_sub_cancel_left, ← len_enc, List.take_length]
  have hdropEnd : (build_handshake_packet C shortK pubK temp_priv B).drop
      (parseDataEnd none (build_handshake_packet C shortK pubK temp_priv B)) = [] := by
    rw [parseDataEnd]
    exact List.drop_length _
  have hdecr : (handshakeDecrypt C privK (build_handshake_packet C shortK pubK temp_priv B)
      (parseDataEnd none (build_handshake_packet C shortK pubK temp_priv B))).drop 96
      = B := by
    simp only [handshakeDecrypt, hdrop32take, hdrop64take, htake_enc, hdropEnd,
      List.append_nil]
    rw [← hdh, hks_inv]
    exact drop_append_len _ _ _ (by rw [List.length_take, len_buf]; omega)
  constructor
  · simp only [parse_handshake_packet]
    rw [if_neg hguard]
    simp only [htake32]
    rw [List.find?_cons_of_pos _ (by simp)]
    simp only [hdecr, hdrop64take, beq_self_eq_true, if_pos]
  · intro keys hk
    simp only [parse_handshake_packet]
    rw [if_neg hguard]
    have hfind : keys.find? (fun kv => kv.1
        == (build_handshake_packet C shortK pubK temp_priv B).take 32) = none := by
      rw [List.find?_eq_none]
      intro kv hmem
      simp only [htake32, beq_iff_eq]
      exact hk kv hmem
    rw [hfind]

/-- A trivial instantiation of the abstract primitives, used to evaluate the
handshake codec on concrete inputs: a constant digest, a constant shared
secret and the identity keystream satisfy all the properties the round-trip
relies on. -/
def cryptoId : Crypto where
  sha256 := fun _ => List.replicate 32 0
  pubkey := fun _ => List.replicate 32 0
  sharedSecret := fun _ _ => []
  keystream := fun _ _ d => d

/-- C2 witness: the round-trip theorem applied at a concrete body and key. -/
theorem c2_handshake_roundtrip_witness :
    parse_handshake_packet cryptoId [(List.replicate 32 7, [1])]
        (build_handshake_packet cryptoId (List.replicate 32 7) [2] [3] [9, 9]) none
      = .ok (some (List.replicate 32 7), [9, 9]) :=
  (c2_handshake_roundtrip cryptoId (List.replicate 32 7) [1] [2] [3] [9, 9]
    (by decide) (by decide) (fun _ => rfl) (fun s c d => rfl)
    (fun s c d => rfl) rfl).1

/-- C8 (amended): `parse_handshake_packet` fails with the bad-length error
exactly when the buffer is shorter than 96 plus the explicitly requested
data length (96 bytes when no length is requested); when the length check
passes and no local key matches the first 32 bytes it returns `Ok(None)`
without error; and when a matching key is found but the sha256 of the
decrypted body differs from the checksum at bytes 64..96 it fails with the
bad-checksum error. -/
theorem c8_parse_handshake_errors (C : Crypto) (keys : List (List Nat × List Nat))
    (buffer : List Nat) (data_length : Option Nat) :
    (parse_handshake_packet C keys buffer data_length = .error .badHandshakePacketLength
      ↔ buffer.length < 96 + data_length.getD 0)
    ∧ (¬ buffer.length < 96 + data_length.getD 0 →
        (∀ kv ∈ keys, kv.1 ≠ buffer.take 32) →
        parse_handshake_packet C keys buffer data_length = .ok (none, buffer))
    ∧ (∀ kv, ¬ buffer.length < 96 + data_length.getD 0 →
        keys.find? (fun kv => kv.1 == buffer.take 32) = some kv →
        C.sha256 ((handshakeDecrypt C kv.2 buffer (parseDataEnd data_length buffer)).drop 96)
          ≠ (buffer.drop 64).take 32 →
        parse_handshake_packet C keys buffer data_length
          = .error .badHandshakePacketChecksum) := by
  refine ⟨⟨?_, ?_⟩, ?_, ?_⟩
  · intro h
    by_contra hlen
    simp only [parse_handshake_packet, if_neg hlen] at h
    cases hfind : keys.find? (fun kv => kv.1 == buffer.take 32) with
    | none =>
      rw [hfind] at h
      exact absurd h (by simp)
    | some kv =>
      rw [hfind] at h
      dsimp only at h
      split at h
      · exact absurd h (by simp)
      · exact absurd h (by simp)
  · intro h
    simp only [parse_handshake_packet, if_pos h]
  · intro hlen hk
    simp only [parse_handshake_packet, if_neg hlen]
    have hfind : keys.find? (fun kv => kv.1 == buffer.take 32) = none := by
      rw [List.find?_eq_none]
      intro kv hmem
      simpa [beq_iff_eq] using hk kv hmem
    rw [hfind]
  · intro kv hlen hfind hck
    simp only [parse_handshake_packet, if_neg hlen]
    rw [hfind]
    dsimp only
    rw [if_neg (by simpa [beq_iff_eq] using hck)]

/-- C8 witness: the theorem applied at a concrete 96-byte buffer with a
non-matching key set. -/
theorem c8_parse_handshake_errors_witness :
    parse_handshake_packet cryptoId [([1], [2])] (List.replicate 96 0) none
      = .ok (none, List.replicate 96 0) :=
  (c8_parse_handshake_errors cryptoId [([1], [2])] (List.replicate 96 0) none).2.1
    (by decide) (by decide)

/-- C8 counterexample: with an explicitly requested data length the
bad-length threshold is `96 + data_length`, not 96.  A 96-byte buffer parsed
with `data_length = some 1` fails with the bad-length error even though it
is not shorter than 96 bytes, refuting the claim as stated. -/
theorem c8_parse_handshake_errors_counterexample :
    parse_handshake_packet cryptoId [] (List.replicate 96 0) (some 1)
      = .error .badHandshakePacketLength
    ∧ ¬ (List.replicate 96 0).length < 96 := ⟨rfl, by decide⟩

end TinyAdnl.Handshake

namespace TinyAdnl.Node

/-! ## ADNL node (`src/adnl_node/mod.rs`)

Identifiers, keys, addresses and channel ids are abstracted to `Nat`.
The peer and channel record types live in the `peer.rs` and `channel.rs`
modules, which are not among the embedded sources; they are modelled from
the specification (§3, §4.2, §4.3) through the interface `mod.rs`
consumes, and the definitions say so in their doc comments.  The node's
concurrent hash maps become association lists, every method that mutates
node state takes and returns an explicit `NodeState`, and randomness
(fresh ephemeral keys) is threaded as explicit parameters. -/

open TinyAdnl (alookup aset adel aupd)

/-- Modelled from the spec: the per-priority sliding-window seqno tracker
of the missing `peer.rs` (§4.3).  `seqno` is the current maximum
(receiver) or last sent value (sender); `seen` records the delivered
seqnos.  The exact window width is in the missing file as well; it is the
constant `historyWindow` here (the spec requires only W ≥ 256) and no
claim depends on its value. -/
structure PacketsHistory where
  seqno : Nat
  seen : List Nat
  deriving DecidableEq

def historyWindow : Nat := 256

def PacketsHistory.empty : PacketsHistory := ⟨0, []⟩

/-- Modelled from the spec: `deliver_packet` (§4.3) accepts a seqno
strictly greater than the current maximum (sliding the window forward) or
an unseen seqno within the window, and rejects — returning `false` and
leaving the state unchanged — an already-seen or out-of-window seqno. -/
def PacketsHistory.deliver_packet (h : PacketsHistory) (seqno : Nat) : Bool × PacketsHistory :=
  if seqno > h.seqno then
    (true, { seqno := seqno, seen := seqno :: h.seen })
  else if seqno + historyWindow > h.seqno ∧ h.seen.contains seqno = false then
    (true, { h with seen := seqno :: h.seen })
  else
    (false, h)

/-- Modelled from the spec: `bump_seqno` (§4.3) atomically increments the
sender maximum and returns the new value. -/
def PacketsHistory.bump_seqno (h : PacketsHistory) : Nat × PacketsHistory :=
  (h.seqno + 1, { h with seqno := h.seqno + 1 })

/-- Modelled from the spec: one direction of the per-peer state
(`sender_state` / `receiver_state`, §3): a reinit date and one seqno
history per priority class. -/
structure PeerState where
  reinit_date : Nat
  ordinary_history : PacketsHistory
  priority_history : PacketsHistory
  deriving DecidableEq

def PeerState.history (s : PeerState) (priority : Bool) : PacketsHistory :=
  if priority then s.priority_history else s.ordinary_history

def PeerState.setHistory (s : PeerState) (priority : Bool) (h : PacketsHistory) : PeerState :=
  if priority then { s with priority_history := h } else { s with ordinary_history := h }

/-- Modelled from the spec: the per-(local id, peer id) state of the
missing `peer.rs` (§3).  `full_id` is the remote public key and
`channel_key` the local ephemeral channel keypair, rotated on `reset`. -/
structure AdnlPeer where
  ip_address : Nat
  full_id : Nat
  channel_key : Nat
  sender_state : PeerState
  receiver_state : PeerState
  deriving DecidableEq

/-- Modelled from the spec: `AdnlPeer::new(start_time, ip, full_id)` draws
a fresh random channel key (the explicit `fresh_key` parameter) and sets
the reinit dates to the node start time (§3). -/
def AdnlPeer.new (reinit_date ip_address full_id fresh_key : Nat) : AdnlPeer :=
  { ip_address := ip_address, full_id := full_id, channel_key := fresh_key,
    sender_state := ⟨reinit_date, .empty, .empty⟩,
    receiver_state := ⟨reinit_date, .empty, .empty⟩ }

/-- Modelled from the spec: `try_reinit` (§4.3) succeeds iff the offered
date is at least the stored one; a strictly greater date updates the
stored reinit date and resets both seqno histories. -/
def AdnlPeer.try_reinit (p : AdnlPeer) (reinit_date : Nat) : Bool × AdnlPeer :=
  let current := p.sender_state.reinit_date
  if reinit_date < current then (false, p)
  else if reinit_date = current then (true, p)
  else
    (true,
      { p with
        sender_state := ⟨reinit_date, .empty, .empty⟩,
        receiver_state := ⟨p.receiver_state.reinit_date, .empty, .empty⟩ })

/-- Modelled from the spec: `reset` rotates the peer's local ephemeral
channel key (§3); the fresh random key is the explicit parameter. -/
def AdnlPeer.reset (p : AdnlPeer) (fresh_key : Nat) : AdnlPeer :=
  { p with channel_key := fresh_key }

inductive ChannelCreationContext where
  | createChannel
  | confirmChannel
  deriving DecidableEq

/-- Modelled from the spec: a channel of the missing `channel.rs` (§4.2),
restricted to the fields `mod.rs` reads.  The four cipher contexts are
omitted; the two in-ids come from the abstract derivation
`ChannelIdDerivation`.  `channel_key` records the local ephemeral the
channel was built from. -/
structure AdnlChannel where
  local_id : Nat
  peer_id : Nat
  channel_key : Nat
  peer_channel_public_key : Nat
  peer_channel_date : Nat
  ordinary_channel_in_id : Nat
  priority_channel_in_id : Nat
  ready : Bool
  drop_timeout : Nat
  deriving DecidableEq

/-- Modelled from the spec: the in-id derivation of `AdnlChannel::new`
(§4.2) — a function of the priority class, the two parties and the two
ephemeral keys.  Its internals are fixed by the wire protocol and opaque
to `mod.rs`. -/
structure ChannelIdDerivation where
  inId : Bool → Nat → Nat → Nat → Nat → Nat

/-- Modelled from the spec: `AdnlChannel::new` (§4.2).  A channel created
while processing `ConfirmChannel` is born ready (readiness follows
`ConfirmChannel` processing); one created by `CreateChannel` is not.
`drop_timeout` starts at zero. -/
def AdnlChannel.new (der : ChannelIdDerivation)
    (local_id peer_id channel_key peer_channel_public_key peer_channel_date : Nat)
    (context : ChannelCreationContext) : AdnlChannel :=
  { local_id := local_id, peer_id := peer_id, channel_key := channel_key,
    peer_channel_public_key := peer_channel_public_key,
    peer_channel_date := peer_channel_date,
    ordinary_channel_in_id :=
      der.inId false local_id peer_id channel_key peer_channel_public_key,
    priority_channel_in_id :=
      der.inId true local_id peer_id channel_key peer_channel_public_key,
    ready := context = .confirmChannel,
    drop_timeout := 0 }

/-- Modelled from the spec: `is_still_valid` (§4.2) compares the stored
remote ephemeral and channel date with the offered ones. -/
def AdnlChannel.is_still_valid (c : AdnlChannel)
    (peer_channel_public_key peer_channel_date : Nat) : Bool :=
  c.peer_channel_public_key == peer_channel_public_key
    && c.peer_channel_date == peer_channel_date

/-- Modelled from the spec: `update_drop_timeout(now)` of the missing
`channel.rs` (§4.2) sets the drop deadline to `now + query_max_timeout`
when it is currently zero, and returns the previous value. -/
def AdnlChannel.update_drop_timeout (c : AdnlChannel) (now timeout : Nat) :
    Nat × AdnlChannel :=
  if c.drop_timeout = 0 then (0, { c with drop_timeout := now + timeout })
  else (c.drop_timeout, c)

/-- The node options (`AdnlNodeOptions`), restricted to the fields the
embedded methods read. -/
structure AdnlNodeOptions where
  query_max_timeout_ms : Nat
  clock_tolerance_sec : Nat
  packet_history_enabled : Bool
  packet_signature_required : Bool
  force_use_priority_channels : Bool
  deriving DecidableEq

/-- The ADNL message kinds (`proto::adnl::Message`). -/
inductive Message where
  | answer (query_id : Nat) (answer : List Nat)
  | confirmChannel (key : Nat) (peer_key : Nat) (date : Nat)
  | createChannel (key : Nat) (date : Nat)
  | custom (data : List Nat)
  | nop
  | query (query_id : Nat) (query : List Nat)
  | part (hash : List Nat) (total_size : Nat) (offset : Nat) (data : List Nat)
  deriving DecidableEq

inductive PeerContext where
  | adnlPacket
  | dht
  | publicOverlay
  | privateOverlay
  deriving DecidableEq

/-- The error kinds of `AdnlNodeError` and `AdnlPacketError`, merged into
one type as the `anyhow::Error` propagation merges them. -/
inductive AdnlError where
  | alreadyRunning
  | invalidPacket
  | peersNotFound
  | unknownMessage
  | unknownQueryAnswer
  | unknownPeer
  | unknownPeerInChannel
  | noSubscribersForCustomMessage
  | noSubscribersForQuery
  | unexpectedMessageToSend
  | failedToSendPacket
  | unsupportedVersion
  | explicitSourceForChannel
  | invalidPeerId
  | noKeyDataInPacket
  | unknownChannel
  | dstReinitDateTooNew
  | dstReinitDateTooOld
  | srcReinitDateTooNew
  | srcReinitDateTooOld
  | confirmationSeqnoTooNew
  | signatureNotFound
  | invalidSignature
  | invalidAddressList
  | keyNotFound
  deriving DecidableEq

/-- The mutable tables and immutable data of `AdnlNode`: known peers per
local id, the two channel tables, the keystore (short id → stored key,
modelled from the spec since `adnl_keystore.rs` is not among the
sources), the socket address and the start time. -/
structure NodeState where
  ip_address : Nat
  options : AdnlNodeOptions
  keystore : List (Nat × Nat)
  peers : List (Nat × List (Nat × AdnlPeer))
  channels_by_id : List (Nat × (Bool × AdnlChannel))
  channels_by_peers : List (Nat × AdnlChannel)
  start_time : Nat
  deriving DecidableEq

/-- Updates the entry of one peer inside the per-local-id peers table,
modelling a mutation through the shared `Arc<AdnlPeers>` entry. -/
def set_peer (st : NodeState) (local_id peer_id : Nat) (p : AdnlPeer) : NodeState :=
  match alookup st.peers local_id with
  | some pm => { st with peers := aset st.peers local_id (aset pm peer_id p) }
  | none => st

/-- Writes a mutated channel value back into every table slot that shares
it: `channels_by_peers[peer_id]` and the two `channels_by_id` entries are
the same `Arc<AdnlChannel>` in Rust, so a field mutation is visible
through all three. -/
def set_channel (st : NodeState) (peer_id : Nat) (old updated : AdnlChannel) : NodeState :=
  { st with
    channels_by_peers := aupd st.channels_by_peers peer_id updated,
    channels_by_id :=
      aupd (aupd st.channels_by_id old.ordinary_channel_in_id (false, updated))
        old.priority_channel_in_id (true, updated) }

/-- The `Arc`-shared `set_ready` mutation seen through all three table
entries of a channel. -/
def set_channel_ready (st : NodeState) (peer_id : Nat) (ch : AdnlChannel) : NodeState :=
  set_channel st peer_id ch { ch with ready := true }

/-- The method `AdnlNode::get_peers` (lines 1124-1130). -/
def get_peers (st : NodeState) (local_id : Nat) :
    Except AdnlError (List (Nat × AdnlPeer)) :=
  match alookup st.peers local_id with
  | some peers => .ok peers
  | none => .error .peersNotFound

/-- The method `AdnlNode::add_peer` (lines 955-991).  `node_filter` is the
node's immutable `self.node_filter`; `fresh_key` is the random channel key
a newly inserted peer draws inside `AdnlPeer::new`. -/
def add_peer (node_filter : Option (PeerContext → Nat → Nat → Bool))
    (st : NodeState) (ctx : PeerContext) (local_id peer_id : Nat)
    (peer_ip_address peer_full_id fresh_key : Nat) :
    Except AdnlError (Bool × NodeState) :=
  if peer_id = local_id ∧ peer_ip_address = st.ip_address then
    .ok (false, st)
  else if (match node_filter with
           | some filter => !(filter ctx peer_ip_address peer_id)
           | none => false) then
    .ok (false, st)
  else
    match alookup st.peers local_id with
    | none => .error .peersNotFound
    | some peersMap =>
      match alookup peersMap peer_id with
      | some peer =>
        let peers' :=
          aset st.peers local_id
            (aset peersMap peer_id { peer with ip_address := peer_ip_address })
        .ok (true, { st with peers := peers' })
      | none =>
        let peers' :=
          aset st.peers local_id
            (aset peersMap peer_id
              (AdnlPeer.new st.start_time peer_ip_address peer_full_id fresh_key))
        .ok (true, { st with peers := peers' })

/-- The immutable ambient context of the packet pipeline: the configured
node filter, the ed25519 and TL operations abstracted as functions
(short-id derivation, signature extraction and verification, address-list
parsing), and the randomness drawn while handling a packet. -/
structure CheckEnv where
  node_filter : Option (PeerContext → Nat → Nat → Bool)
  compute_short_id : Nat → Nat
  extract_ok : Nat → Bool
  verify : Nat → Nat → Bool
  parse_address : Nat → Nat → Option Nat
  fresh_key : Nat

/-- The incoming packet fields `check_packet` reads
(`proto::adnl::IncomingPacketContents`).  `reinit_dates` carries
`(local, target)`: the sender's own reinit date and the one it expects of
us.  The message payloads are irrelevant to validation and omitted. -/
structure IncomingPacketContents where
  from_full : Option Nat
  from_short : Option Nat
  address : Option Nat
  seqno : Option Nat
  confirm_seqno : Option Nat
  reinit_dates : Option (Nat × Nat)
  signature : Option Nat
  deriving DecidableEq

/-- The inner helper `verify` of `check_packet` (lines 533-554): a present
signature must extract (else `SignatureNotFound`) and verify (else
`InvalidSignature`); an absent one is an error only when mandatory. -/
def verifySignature (env : CheckEnv) (signature : Option Nat) (public_key : Nat)
    (mandatory : Bool) : Except AdnlError Unit :=
  match signature with
  | some s =>
    if env.extract_ok s = false then .error .signatureNotFound
    else if env.verify public_key s = false then .error .invalidSignature
    else .ok ()
  | none => if mandatory then .error .signatureNotFound else .ok ()

/-- The reinit-date policy block of `check_packet` (lines 620-646).  The
result triple is the Rust control flow (`Ok`/the packet error), the peer
state as left behind (a `try_reinit` update persists even when a later
check rejects), and the optional `Nop` message sent to prod a stale peer
(the actual enqueueing through `send_message` is modelled as this returned
request). -/
def check_packet_reinit_dates (options : AdnlNodeOptions) (peer : AdnlPeer)
    (peer_reinit_date local_reinit_date now : Nat) :
    Except AdnlError Unit × AdnlPeer × Option Message :=
  let expected_local_reinit_date :=
    compare local_reinit_date peer.receiver_state.reinit_date
  if expected_local_reinit_date = .gt then
    (.error .dstReinitDateTooNew, peer, none)
  else if peer_reinit_date > now + options.clock_tolerance_sec then
    (.error .srcReinitDateTooNew, peer, none)
  else
    let r := peer.try_reinit peer_reinit_date
    if r.1 = false then (.error .srcReinitDateTooOld, r.2, none)
    else if local_reinit_date ≠ 0 ∧ expected_local_reinit_date = .lt then
      (.error .dstReinitDateTooOld, r.2, some .nop)
    else (.ok (), r.2, none)

/-- The confirm-seqno check of `check_packet` (lines 660-665). -/
def check_packet_confirm_seqno (peer : AdnlPeer) (confirm_seqno : Option Nat)
    (priority : Bool) : Except AdnlError Bool × AdnlPeer :=
  match confirm_seqno with
  | some c =>
    if c > (peer.sender_state.history priority).seqno then
      (.error .confirmationSeqnoTooNew, peer)
    else (.ok true, peer)
  | none => (.ok true, peer)

/-- The seqno block of `check_packet` (lines 648-665): the receiver
history check runs only when `packet_history_enabled` and a seqno is
present; a rejected (repeated) seqno yields `Ok(false)` — the packet is
silently dropped — and an accepted one updates the receiver history
before the confirm-seqno bound is checked. -/
def check_packet_seqnos (options : AdnlNodeOptions) (peer : AdnlPeer)
    (seqno confirm_seqno : Option Nat) (priority : Bool) :
    Except AdnlError Bool × AdnlPeer :=
  if options.packet_history_enabled then
    match seqno with
    | some s =>
      let r := (peer.receiver_state.history priority).deliver_packet s
      let peer' :=
        { peer with receiver_state := peer.receiver_state.setHistory priority r.2 }
      if r.1 = false then (.ok false, peer')
      else check_packet_confirm_seqno peer' confirm_seqno priority
    | none => check_packet_confirm_seqno peer confirm_seqno priority
  else check_packet_confirm_seqno peer confirm_seqno priority

/-- The tail of `check_packet` after the peer is resolved and verified:
the seqno checks followed by writing the mutated peer state back.  Returns
`Ok(None)` for a silently dropped repeated packet, `Ok(Some(peer_id))` on
acceptance. -/
def check_packet_stage3 (st : NodeState) (local_id peer_id : Nat) (peer : AdnlPeer)
    (seqno confirm_seqno : Option Nat) (priority : Bool) :
    Except AdnlError (Option Nat) × NodeState × List Message :=
  let r := check_packet_seqnos st.options peer seqno confirm_seqno priority
  match r.1 with
  | .error e => (.error e, set_peer st local_id peer_id r.2, [])
  | .ok false => (.ok none, set_peer st local_id peer_id r.2, [])
  | .ok true => (.ok (some peer_id), set_peer st local_id peer_id r.2, [])

/-- The middle of `check_packet` (lines 597-667): peer lookup (with the
`UnknownChannel` guard for channel-framed packets), the stored-key
signature check, the reinit-date policy and the seqno checks. -/
def check_packet_stage2 (env : CheckEnv) (st : NodeState)
    (packet : IncomingPacketContents) (local_id peer_id : Nat)
    (check_signature from_channel priority : Bool) (now : Nat) :
    Except AdnlError (Option Nat) × NodeState × List Message :=
  match alookup st.peers local_id with
  | none => (.error .peersNotFound, st, [])
  | some peersMap =>
    if from_channel ∧ (alookup st.channels_by_peers peer_id).isNone then
      (.error .unknownChannel, st, [])
    else
      match alookup peersMap peer_id with
      | none => (.error .unknownPeer, st, [])
      | some peer =>
        match (if check_signature then
                 verifySignature env packet.signature peer.full_id false
               else .ok ()) with
        | .error e => (.error e, st, [])
        | .ok () =>
          match packet.reinit_dates with
          | some rd =>
            let r := check_packet_reinit_dates st.options peer rd.1 rd.2 now
            match r.1 with
            | .error e =>
              (.error e, set_peer st local_id peer_id r.2.1,
                match r.2.2 with
                | some m => [m]
                | none => [])
            | .ok () =>
              check_packet_stage3 st local_id peer_id r.2.1
                packet.seqno packet.confirm_seqno priority
          | none =>
            check_packet_stage3 st local_id peer_id peer
              packet.seqno packet.confirm_seqno priority

/-- The method `AdnlNode::check_packet` (lines 522-668).  The first
component is the Rust return value (`Ok(Some(peer_id))` accepted,
`Ok(None)` silently dropped, or the packet error), the second the node
state as left behind (mutations made before a rejection persist, as they
do through the `Arc`-shared tables), the third the messages sent while
checking (the `Nop` prod of a stale peer). -/
def check_packet (env : CheckEnv) (st : NodeState) (packet : IncomingPacketContents)
    (local_id : Nat) (peer_id : Option Nat) (priority : Bool) (now : Nat) :
    Except AdnlError (Option Nat) × NodeState × List Message :=
  match peer_id with
  | some pid =>
    if packet.from_full.isSome || packet.from_short.isSome then
      (.error .explicitSourceForChannel, st, [])
    else
      check_packet_stage2 env st packet local_id pid true true priority now
  | none =>
    match packet.from_full with
    | some public_key =>
      let pid := env.compute_short_id public_key
      if (match packet.from_short with
          | some i => pid != i
          | none => false) then
        (.error .invalidPeerId, st, [])
      else
        match verifySignature env packet.signature public_key
            st.options.packet_signature_required with
        | .error e => (.error e, st, [])
        | .ok () =>
          match packet.address with
          | some list =>
            match env.parse_address list st.options.clock_tolerance_sec with
            | none => (.error .invalidAddressList, st, [])
            | some ip =>
              match add_peer env.node_filter st .adnlPacket local_id pid ip
                  public_key env.fresh_key with
              | .error e => (.error e, st, [])
              | .ok (_, st') =>
                check_packet_stage2 env st' packet local_id pid false false priority now
          | none =>
            check_packet_stage2 env st packet local_id pid false false priority now
    | none =>
      match packet.from_short with
      | some pid =>
        check_packet_stage2 env st packet local_id pid true false priority now
      | none => (.error .noKeyDataInPacket, st, [])

def MAX_ADNL_MESSAGE_SIZE : Nat := 1024

def MSG_ANSWER_SIZE : Nat := 44

def MSG_CONFIRM_CHANNEL_SIZE : Nat := 72

def MSG_CREATE_CHANNEL_SIZE : Nat := 40

def MSG_CUSTOM_SIZE : Nat := 12

def MSG_NOP_SIZE : Nat := 4

def MSG_QUERY_SIZE : Nat := 44

def MSG_PART_PREFIX_SIZE : Nat := 40

def MAX_PRIORITY_ATTEMPTS : Nat := 10

/-- The local helper `build_part_message` of `send_message` (lines
759-780), including its way of advancing the offset: the slice end is
`len = min(data.len(), offset + max_size)`, the emitted `Part` carries
`data[offset..len]` (empty when `offset ≥ len`), and the new offset is
`offset + len`. -/
def build_part_message (data : List Nat) (hash : List Nat) (max_size offset : Nat) :
    Message × Nat :=
  let len := min data.length (offset + max_size)
  let result := Message.part hash data.length offset
    (if offset < len then (data.drop offset).take (len - offset) else [])
  (result, offset + len)

/-- The signer chosen by `send_message`: an established channel with a
priority class, or the local stored key for handshake framing. -/
inductive MessageSigner where
  | channel (ch : AdnlChannel) (priority : Bool)
  | random (local_key : Nat)
  deriving DecidableEq

/-- The framing of an emitted packet: channel encryption on the given
sub-channel, or a handshake envelope. -/
inductive PacketSigner where
  | channel (priority : Bool)
  | handshake
  deriving DecidableEq

/-- The priority class a framing transmits on (handshake frames are
ordinary). -/
def PacketSigner.priorityClass : PacketSigner → Bool
  | .channel p => p
  | .handshake => false

/-- The structured fields of `proto::adnl::OutgoingPacketContents` that
claims inspect; the random bytes, address list and the signature value
itself carry no claim-relevant information and are reduced to the
`signed` flag. -/
structure OutgoingPacketContents where
  from_full : Option Nat
  messages : List Message
  seqno : Nat
  confirm_seqno : Nat
  reinit_dates : Option (Nat × Nat)
  signed : Bool
  deriving DecidableEq

/-- One entry of the sender queue (`PacketToSend`): the destination, the
packet contents and the framing it will be encrypted with. -/
structure PacketToSend where
  destination : Nat
  contents : OutgoingPacketContents
  framing : PacketSigner
  deriving DecidableEq

/-- The peer state after `bump_seqno` on the sender history of the given
priority class (the atomic mutation of `send_packet`'s seqno line). -/
def bump_sender (peer : AdnlPeer) (priority : Bool) : AdnlPeer :=
  { peer with
    sender_state :=
      peer.sender_state.setHistory priority ((peer.sender_state.history priority).bump_seqno).2 }

/-- The method `AdnlNode::send_packet` (lines 823-902): the priority
demotion, the seqno bump, the packet assembly and the enqueueing.  The
Rust function receives the already-looked-up `Arc` peer entry and mutates
it through atomics; here the same entry is fetched from the state and the
mutated value written back. -/
def send_packet (st : NodeState) (local_id peer_id : Nat) (signer : MessageSigner)
    (messages : List Message) : Except AdnlError (NodeState × PacketToSend) :=
  match alookup st.peers local_id with
  | none => .error .peersNotFound
  | some peersMap =>
    match alookup peersMap peer_id with
    | none => .error .unknownPeer
    | some peer =>
      let signer :=
        match signer with
        | .channel ch p =>
          if (peer.receiver_state.history p).seqno = 0
              ∧ (peer.sender_state.history true).seqno > MAX_PRIORITY_ATTEMPTS then
            MessageSigner.channel ch false
          else MessageSigner.channel ch p
        | .random k => MessageSigner.random k
      let priority :=
        match signer with
        | .channel _ p => p
        | .random _ => false
      let bump := (peer.sender_state.history priority).bump_seqno
      let peer' := bump_sender peer priority
      let packet : OutgoingPacketContents :=
        { from_full :=
            match signer with
            | .channel _ _ => none
            | .random local_key => some local_key,
          messages := messages,
          seqno := bump.1,
          confirm_seqno := (peer.receiver_state.history priority).seqno,
          reinit_dates :=
            match signer with
            | .channel _ _ => none
            | .random _ =>
              some (peer.receiver_state.reinit_date, peer.sender_state.reinit_date),
          signed :=
            match signer with
            | .channel _ _ => false
            | .random _ => true }
      let framing :=
        match signer with
        | .channel _ p => PacketSigner.channel p
        | .random _ => PacketSigner.handshake
      .ok ({ st with peers := aset st.peers local_id (aset peersMap peer_id peer') },
        { destination := peer.ip_address, contents := packet, framing := framing })

/-- The serializer and digest used by the splitting path of
`send_message`, abstracted as functions (`tl_proto::serialize` and
sha256). -/
structure SendEnv where
  serialize : Message → List Nat
  sha256 : List Nat → List Nat

/-- The `while offset < data.len()` loop of `send_message` (lines
806-817): each iteration builds a `Part` with payload bound
`MAX_ADNL_MESSAGE_SIZE` and sends it as a single-message packet.  The
recursion is bounded by the fuel argument; `send_message` passes
`data.length + 1`, which dominates the iteration count because each
iteration strictly increases the offset. -/
def send_message_parts : Nat → NodeState → Nat → Nat → MessageSigner → List Nat →
    List Nat → Nat → List PacketToSend → Except AdnlError (NodeState × List PacketToSend)
  | 0, st, _, _, _, _, _, _, acc => .ok (st, acc)
  | fuel + 1, st, local_id, peer_id, signer, data, hash, offset, acc =>
    if offset < data.length then
      let r := build_part_message data hash MAX_ADNL_MESSAGE_SIZE offset
      match send_packet st local_id peer_id signer [r.1] with
      | .error e => .error e
      | .ok (st', pkt) =>
        send_message_parts fuel st' local_id peer_id signer data hash r.2 (acc ++ [pkt])
    else .ok (st, acc)

/-- The method `AdnlNode::send_message` (lines 670-821): pick the framing
and the bootstrap message, compute the per-kind serialized size, and emit
either one packet or a `Part` sequence over the serialized real message.
`now` feeds the fresh `CreateChannel` date. -/
def send_message (env : SendEnv) (st : NodeState) (local_id peer_id : Nat)
    (message : Message) (priority : Bool) (now : Nat) :
    Except AdnlError (NodeState × List PacketToSend) :=
  match alookup st.peers local_id with
  | none => .error .peersNotFound
  | some peersMap =>
    match alookup peersMap peer_id with
    | none => .error .unknownPeer
    | some peer =>
      match alookup st.keystore local_id with
      | none => .error .keyNotFound
      | some local_key =>
        let channel := alookup st.channels_by_peers peer_id
        let fha : Bool × Nat × Option Message :=
          match channel with
          | some ch =>
            if ch.ready then (false, 0, none)
            else
              (true, MSG_CONFIRM_CHANNEL_SIZE,
                some (.confirmChannel peer.channel_key ch.peer_channel_public_key
                  ch.peer_channel_date))
          | none =>
            (false, MSG_CREATE_CHANNEL_SIZE, some (.createChannel peer.channel_key now))
        let force_handshake := fha.1
        let additional_size := fha.2.1
        let additional_message := fha.2.2
        let msgSize : Except AdnlError Nat :=
          match message with
          | .answer _ a => .ok (a.length + MSG_ANSWER_SIZE)
          | .confirmChannel _ _ _ => .ok MSG_CONFIRM_CHANNEL_SIZE
          | .custom d => .ok (d.length + MSG_CUSTOM_SIZE)
          | .nop => .ok MSG_NOP_SIZE
          | .query _ q => .ok (q.length + MSG_QUERY_SIZE)
          | _ => .error .unexpectedMessageToSend
        match msgSize with
        | .error e => .error e
        | .ok ms =>
          let size := additional_size + ms
          let signer : MessageSigner :=
            match channel with
            | some ch =>
              if force_handshake then .random local_key else .channel ch priority
            | none => .random local_key
          if size ≤ MAX_ADNL_MESSAGE_SIZE then
            let messages :=
              match additional_message with
              | some am => [am, message]
              | none => [message]
            match send_packet st local_id peer_id signer messages with
            | .error e => .error e
            | .ok (st', pkt) => .ok (st', [pkt])
          else
            let data := env.serialize message
            let hash := env.sha256 data
            match additional_message with
            | some am =>
              let r := build_part_message data hash
                (MAX_ADNL_MESSAGE_SIZE - MSG_PART_PREFIX_SIZE - additional_size) 0
              match send_packet st local_id peer_id signer [am, r.1] with
              | .error e => .error e
              | .ok (st', pkt) =>
                send_message_parts (data.length + 1) st' local_id peer_id signer
                  data hash r.2 [pkt]
            | none =>
              send_message_parts (data.length + 1) st local_id peer_id signer
                data hash 0 []

/-- The method `AdnlNode::create_channel` (lines 1150-1227).  `der` is the
abstract in-id derivation of the missing `channel.rs`. -/
def create_channel (der : ChannelIdDerivation) (st : NodeState)
    (local_id peer_id : Nat) (peer_channel_public_key peer_channel_date : Nat)
    (context : ChannelCreationContext) : Except AdnlError NodeState :=
  match alookup st.peers local_id with
  | none => .error .peersNotFound
  | some peersMap =>
    match alookup peersMap peer_id with
    | none => .error .unknownPeerInChannel
    | some peer =>
      match alookup st.channels_by_peers peer_id with
      | some channel =>
        if channel.is_still_valid peer_channel_public_key peer_channel_date then
          if context = .confirmChannel then
            .ok (set_channel_ready st peer_id channel)
          else .ok st
        else
          let new_channel := AdnlChannel.new der local_id peer_id peer.channel_key
            peer_channel_public_key peer_channel_date context
          let by_id' :=
            aset (aset (adel (adel st.channels_by_id channel.ordinary_channel_in_id)
                  channel.priority_channel_in_id)
                new_channel.ordinary_channel_in_id (false, new_channel))
              new_channel.priority_channel_in_id (true, new_channel)
          .ok { st with
            channels_by_peers := aset st.channels_by_peers peer_id new_channel,
            channels_by_id := by_id' }
      | none =>
        let new_channel := AdnlChannel.new der local_id peer_id peer.channel_key
          peer_channel_public_key peer_channel_date context
        let by_id' :=
          aset (aset st.channels_by_id
              new_channel.ordinary_channel_in_id (false, new_channel))
            new_channel.priority_channel_in_id (true, new_channel)
        .ok { st with
          channels_by_peers := aset st.channels_by_peers peer_id new_channel,
          channels_by_id := by_id' }

/-- The method `AdnlNode::reset_peer` (lines 1132-1148): drop the peer's
channel from both tables and rotate the peer's ephemeral key (the fresh
random key is explicit). -/
def reset_peer (st : NodeState) (local_id peer_id fresh_key : Nat) :
    Except AdnlError NodeState :=
  match alookup st.peers local_id with
  | none => .error .peersNotFound
  | some peersMap =>
    match alookup peersMap peer_id with
    | none => .error .unknownPeer
    | some peer =>
      let st1 :=
        match alookup st.channels_by_peers peer_id with
        | some removed =>
          { st with
            channels_by_peers := adel st.channels_by_peers peer_id,
            channels_by_id :=
              adel (adel st.channels_by_id removed.ordinary_channel_in_id)
                removed.priority_channel_in_id }
        | none => st
      .ok (set_peer st1 local_id peer_id (peer.reset fresh_key))

/-- The `Ok(None)` (dropped or timed-out) branch of `AdnlNode::query_raw`
(lines 1106-1121): the channel captured for the peer, if any, gets
`update_drop_timeout(now)`, and a previously-set deadline that already
expired triggers `reset_peer`; the caller still sees `Ok(None)`. -/
def query_raw_on_dropped (st : NodeState) (local_id peer_id now fresh_key : Nat) :
    Except AdnlError (Option (List Nat) × NodeState) :=
  match alookup st.channels_by_peers peer_id with
  | some channel =>
    let r := channel.update_drop_timeout now st.options.query_max_timeout_ms
    let st1 := set_channel st peer_id channel r.2
    if r.1 > 0 ∧ r.1 < now then
      match reset_peer st1 local_id peer_id fresh_key with
      | .error e => .error e
      | .ok st2 => .ok (none, st2)
    else .ok (none, st1)
  | none => .ok (none, st)

theorem try_reinit_fail (p : AdnlPeer) (d : Nat) (h : d < p.sender_state.reinit_date) :
    p.try_reinit d = (false, p) := by
  unfold AdnlPeer.try_reinit
  rw [if_pos h]

theorem try_reinit_fst_true (p : AdnlPeer) (d : Nat)
    (h : ¬ d < p.sender_state.reinit_date) : (p.try_reinit d).1 = true := by
  unfold AdnlPeer.try_reinit
  rw [if_neg h]
  by_cases h4 : d = p.sender_state.reinit_date
  · rw [if_pos h4]
  · rw [if_neg h4]

/-- C5: for every inbound packet carrying reinit dates, `check_packet`
applies exactly this policy in this order: reject `DstReinitTooNew` when
the expected local reinit date exceeds our receiver reinit date; reject
`SrcReinitTooNew` when the peer's reinit date exceeds now plus the clock
tolerance; reject `SrcReinitTooOld` when `try_reinit` fails, i.e. the
peer's reinit date is below the stored one; and when the expected local
reinit date is nonzero and strictly below our receiver reinit date, send a
`Nop` to the peer and return `DstReinitTooOld`. -/
theorem c5_reinit_policy (options : AdnlNodeOptions) (peer : AdnlPeer)
    (peer_reinit_date local_reinit_date now : Nat) :
    check_packet_reinit_dates options peer peer_reinit_date local_reinit_date now
      = if local_reinit_date > peer.receiver_state.reinit_date then
          (.error .dstReinitDateTooNew, peer, none)
        else if peer_reinit_date > now + options.clock_tolerance_sec then
          (.error .srcReinitDateTooNew, peer, none)
        else if peer_reinit_date < peer.sender_state.reinit_date then
          (.error .srcReinitDateTooOld, peer, none)
        else if local_reinit_date ≠ 0
            ∧ local_reinit_date < peer.receiver_state.reinit_date then
          (.error .dstReinitDateTooOld, (peer.try_reinit peer_reinit_date).2, some .nop)
        else (.ok (), (peer.try_reinit peer_reinit_date).2, none) := by
  simp only [check_packet_reinit_dates]
  by_cases h1 : peer.receiver_state.reinit_date < local_reinit_date
  · rw [if_pos (Nat.compare_eq_gt.mpr h1), if_pos h1]
  · rw [if_neg (fun hc => h1 (Nat.compare_eq_gt.mp hc)), if_neg h1]
    by_cases h2 : peer_reinit_date > now + options.clock_tolerance_sec
    · rw [if_pos h2, if_pos h2]
    · rw [if_neg h2, if_neg h2]
      by_cases h3 : peer_reinit_date < peer.sender_state.reinit_date
      · rw [try_reinit_fail peer peer_reinit_date h3]
        rw [if_pos rfl, if_pos h3]
      · rw [if_neg h3]
        rw [if_neg (by rw [try_reinit_fst_true peer peer_reinit_date h3]; simp)]
        by_cases h5 : local_reinit_date ≠ 0
            ∧ compare local_reinit_date peer.receiver_state.reinit_date = .lt
        · rw [if_pos h5, if_pos ⟨h5.1, Nat.compare_eq_lt.mp h5.2⟩]
        · rw [if_neg h5, if_neg (fun hc : local_reinit_date ≠ 0
              ∧ local_reinit_date < peer.receiver_state.reinit_date =>
            h5 ⟨hc.1, Nat.compare_eq_lt.mpr hc.2⟩)]

/-- A named record update of the peers table (used to state table updates
without inline record syntax). -/
def with_peers (st : NodeState) (p : List (Nat × List (Nat × AdnlPeer))) : NodeState :=
  { st with peers := p }

/-- C10: `add_peer` returns `Ok(false)` leaving the state untouched when
the peer to add is the node itself (same id and same socket address) or
when the configured node filter rejects the triple; in every other case
with a known local id it returns `Ok(true)`, updating the stored IP of an
existing peer and inserting a fresh peer entry otherwise. -/
theorem c10_add_peer (node_filter : Option (PeerContext → Nat → Nat → Bool))
    (st : NodeState) (ctx : PeerContext) (local_id peer_id ip full_id fresh_key : Nat) :
    (peer_id = local_id ∧ ip = st.ip_address →
      add_peer node_filter st ctx local_id peer_id ip full_id fresh_key
        = .ok (false, st))
    ∧ (∀ f, node_filter = some f → ¬ (peer_id = local_id ∧ ip = st.ip_address) →
        f ctx ip peer_id = false →
        add_peer node_filter st ctx local_id peer_id ip full_id fresh_key
          = .ok (false, st))
    ∧ (¬ (peer_id = local_id ∧ ip = st.ip_address) →
        (∀ f, node_filter = some f → f ctx ip peer_id = true) →
        ∀ pm, alookup st.peers local_id = some pm →
          (∀ peer, alookup pm peer_id = some peer →
            add_peer node_filter st ctx local_id peer_id ip full_id fresh_key
              = .ok (true, with_peers st (aset st.peers local_id
                  (aset pm peer_id { peer with ip_address := ip }))))
          ∧ (alookup pm peer_id = none →
            add_peer node_filter st ctx local_id peer_id ip full_id fresh_key
              = .ok (true, with_peers st (aset st.peers local_id
                  (aset pm peer_id
                    (AdnlPeer.new st.start_time ip full_id fresh_key)))))) := by
  refine ⟨?_, ?_, ?_⟩
  · intro h
    simp only [add_peer]
    rw [if_pos h]
  · intro f hf hself hrej
    subst hf
    simp only [add_peer, hrej]
    rw [if_neg hself]
    simp
  · intro hself hfil pm hpm
    rcases hnf : node_filter with _ | f
    · constructor
      · intro peer hpeer
        simp only [add_peer, hpm, hpeer]
        rw [if_neg hself]
        simp [with_peers]
      · intro hpeer
        simp only [add_peer, hpm, hpeer]
        rw [if_neg hself]
        simp [with_peers]
    · have hf : f ctx ip peer_id = true := hfil f hnf
      constructor
      · intro peer hpeer
        simp only [add_peer, hpm, hpeer, hf]
        rw [if_neg hself]
        simp [with_peers]
      · intro hpeer
        simp only [add_peer, hpm, hpeer, hf]
        rw [if_neg hself]
        simp [with_peers]

/-- C6: with channel framing and priority=true, `send_packet` demotes the
send to the ordinary sub-channel exactly when the peer has accepted zero
priority packets and our priority sender seqno already exceeds
`MAX_PRIORITY_ATTEMPTS = 10`; handshake-framed packets are never
priority. -/
theorem c6_send_packet_demotion (st : NodeState) (local_id peer_id : Nat)
    (ch : AdnlChannel) (messages : List Message) (pm : List (Nat × AdnlPeer))
    (peer : AdnlPeer) (h1 : alookup st.peers local_id = some pm)
    (h2 : alookup pm peer_id = some peer) :
    ((send_packet st local_id peer_id (.channel ch true) messages).map
        (fun r => r.2.framing))
      = .ok (PacketSigner.channel
          (if (peer.receiver_state.history true).seqno = 0
              ∧ (peer.sender_state.history true).seqno > MAX_PRIORITY_ATTEMPTS
           then false else true))
    ∧ ∀ k, ((send_packet st local_id peer_id (.random k) messages).map
        (fun r => r.2.framing)) = .ok PacketSigner.handshake := by
  constructor
  · simp only [send_packet, h1, h2]
    by_cases hc : (peer.receiver_state.history true).seqno = 0
        ∧ (peer.sender_state.history true).seqno > MAX_PRIORITY_ATTEMPTS
    · rw [if_pos hc, if_pos hc]
      rfl
    · rw [if_neg hc, if_neg hc]
      rfl
  · intro k
    simp only [send_packet, h1, h2]
    rfl

theorem alookup_aupd_self {β : Type} (m : List (Nat × β)) (k : Nat) (v w : β)
    (h : alookup m k = some w) : alookup (aupd m k v) k = some v := by
  simp only [aupd, h]
  rw [alookup_aset, if_pos rfl]

theorem alookup_adel_adel_left {β : Type} (m : List (Nat × β)) (a b : Nat) :
    alookup (adel (adel m a) b) a = none := by
  rw [alookup_adel]
  by_cases h : b = a
  · rw [if_pos h]
  · rw [if_neg h, alookup_adel, if_pos rfl]

theorem alookup_adel_adel_right {β : Type} (m : List (Nat × β)) (a b : Nat) :
    alookup (adel (adel m a) b) b = none := by
  rw [alookup_adel, if_pos rfl]

/-- The state `reset_peer` leaves behind when the peer is registered and a
channel was installed: both channel tables lose the channel and the peer's
ephemeral key is rotated. -/
def reset_peer_result (st : NodeState) (local_id peer_id fresh_key : Nat)
    (pm : List (Nat × AdnlPeer)) (peer : AdnlPeer) (ch : AdnlChannel) : NodeState :=
  with_peers
    { st with
      channels_by_peers := adel st.channels_by_peers peer_id,
      channels_by_id :=
        adel (adel st.channels_by_id ch.ordinary_channel_in_id)
          ch.priority_channel_in_id }
    (aset st.peers local_id (aset pm peer_id (peer.reset fresh_key)))

/-- C7: when a query is dropped, `query_raw` calls `update_drop_timeout`
on the peer's current channel if one exists, and a previously stored
nonzero deadline that lies strictly before now triggers `reset_peer`: the
channel leaves `channels_by_peers`, both of its in-ids leave
`channels_by_id`, the peer's ephemeral channel key is rotated, and the
caller still sees `Ok(None)`. -/
theorem c7_query_drop (st : NodeState) (local_id peer_id now fresh_key : Nat)
    (pm : List (Nat × AdnlPeer)) (peer : AdnlPeer) (ch : AdnlChannel)
    (h1 : alookup st.peers local_id = some pm)
    (h2 : alookup pm peer_id = some peer)
    (hch : alookup st.channels_by_peers peer_id = some ch) :
    (ch.drop_timeout = 0 →
      query_raw_on_dropped st local_id peer_id now fresh_key
        = .ok (none, set_channel st peer_id ch
            { ch with drop_timeout := now + st.options.query_max_timeout_ms }))
    ∧ (ch.drop_timeout > 0 → ch.drop_timeout < now →
      ∃ st2, query_raw_on_dropped st local_id peer_id now fresh_key = .ok (none, st2)
        ∧ alookup st2.channels_by_peers peer_id = none
        ∧ alookup st2.channels_by_id ch.ordinary_channel_in_id = none
        ∧ alookup st2.channels_by_id ch.priority_channel_in_id = none
        ∧ ∃ pm2, alookup st2.peers local_id = some pm2
            ∧ alookup pm2 peer_id = some (peer.reset fresh_key)) := by
  constructor
  · intro h0
    have hupd : ch.update_drop_timeout now st.options.query_max_timeout_ms
        = (0, { ch with drop_timeout := now + st.options.query_max_timeout_ms }) := by
      simp only [AdnlChannel.update_drop_timeout]
      rw [if_pos h0]
    simp only [query_raw_on_dropped, hch, hupd]
    rw [if_neg (by simp)]
  · intro hpos hlt
    have hne : ¬ ch.drop_timeout = 0 := by omega
    have hupd : ch.update_drop_timeout now st.options.query_max_timeout_ms
        = (ch.drop_timeout, ch) := by
      simp only [AdnlChannel.update_drop_timeout]
      rw [if_neg hne]
    have hch1 : alookup (aupd st.channels_by_peers peer_id ch) peer_id = some ch :=
      alookup_aupd_self _ _ _ _ hch
    refine ⟨reset_peer_result (set_channel st peer_id ch ch) local_id peer_id fresh_key
      pm peer ch, ?_, ?_, ?_, ?_, ?_⟩
    · simp only [query_raw_on_dropped, hch, hupd]
      rw [if_pos ⟨hpos, hlt⟩]
      simp only [reset_peer, set_channel, set_peer, h1, h2, hch1,
        reset_peer_result, with_peers]
    · simp only [reset_peer_result, with_peers, set_channel]
      rw [alookup_adel, if_pos rfl]
    · simp only [reset_peer_result, with_peers, set_channel]
      exact alookup_adel_adel_left _ _ _
    · simp only [reset_peer_result, with_peers, set_channel]
      exact alookup_adel_adel_right _ _ _
    · refine ⟨aset pm peer_id (peer.reset fresh_key), ?_, ?_⟩
      · simp only [reset_peer_result, with_peers]
        rw [alookup_aset, if_pos rfl]
      · rw [alookup_aset, if_pos rfl]

/-- The state `create_channel` installs when it replaces an invalid
existing channel: the new channel enters `channels_by_peers` and both
`channels_by_id` slots, the old channel's two in-id entries are removed
first. -/
def create_channel_swap (der : ChannelIdDerivation) (st : NodeState)
    (local_id peer_id pk date : Nat) (context : ChannelCreationContext)
    (peer : AdnlPeer) (old : AdnlChannel) : NodeState :=
  let new_channel := AdnlChannel.new der local_id peer_id peer.channel_key pk date context
  { st with
    channels_by_peers := aset st.channels_by_peers peer_id new_channel,
    channels_by_id :=
      aset (aset (adel (adel st.channels_by_id old.ordinary_channel_in_id)
            old.priority_channel_in_id)
          new_channel.ordinary_channel_in_id (false, new_channel))
        new_channel.priority_channel_in_id (true, new_channel) }

/-- The state `create_channel` installs when the peer had no channel yet. -/
def create_channel_insert (der : ChannelIdDerivation) (st : NodeState)
    (local_id peer_id pk date : Nat) (context : ChannelCreationContext)
    (peer : AdnlPeer) : NodeState :=
  let new_channel := AdnlChannel.new der local_id peer_id peer.channel_key pk date context
  { st with
    channels_by_peers := aset st.channels_by_peers peer_id new_channel,
    channels_by_id :=
      aset (aset st.channels_by_id
          new_channel.ordinary_channel_in_id (false, new_channel))
        new_channel.priority_channel_in_id (true, new_channel) }

/-- C4 (amended): for a registered peer, if the existing channel is still
valid (same peer key and date) then context Confirm only flips the shared
ready flag and context Create changes nothing at all; if the existing
channel is invalid, or no channel exists, a new channel is built from the
peer's current ephemeral channel key and, after the call,
`channels_by_peers[peer_id]` is the new channel, both of its in-ids map to
it in `channels_by_id`, and the old channel's in-id entries (when not
reused by the new channel) are gone; the peers table never changes. -/
theorem c4_create_channel (der : ChannelIdDerivation) (st : NodeState)
    (local_id peer_id pk date : Nat) (context : ChannelCreationContext)
    (pm : List (Nat × AdnlPeer)) (peer : AdnlPeer)
    (h1 : alookup st.peers local_id = some pm)
    (h2 : alookup pm peer_id = some peer) :
    (∀ old, alookup st.channels_by_peers peer_id = some old →
      old.is_still_valid pk date = true →
      (context = .confirmChannel →
        create_channel der st local_id peer_id pk date context
          = .ok (set_channel_ready st peer_id old))
      ∧ (context = .createChannel →
        create_channel der st local_id peer_id pk date context = .ok st))
    ∧ (∀ old, alookup st.channels_by_peers peer_id = some old →
      old.is_still_valid pk date = false →
      create_channel der st local_id peer_id pk date context
        = .ok (create_channel_swap der st local_id peer_id pk date context peer old)
      ∧ (let nc := AdnlChannel.new der local_id peer_id peer.channel_key pk date context
         let st' := create_channel_swap der st local_id peer_id pk date context peer old
         alookup st'.channels_by_peers peer_id = some nc
         ∧ alookup st'.channels_by_id nc.priority_channel_in_id = some (true, nc)
         ∧ (nc.ordinary_channel_in_id ≠ nc.priority_channel_in_id →
             alookup st'.channels_by_id nc.ordinary_channel_in_id = some (false, nc))
         ∧ (old.ordinary_channel_in_id ≠ nc.ordinary_channel_in_id →
            old.ordinary_channel_in_id ≠ nc.priority_channel_in_id →
             alookup st'.channels_by_id old.ordinary_channel_in_id = none)
         ∧ (old.priority_channel_in_id ≠ nc.ordinary_channel_in_id →
            old.priority_channel_in_id ≠ nc.priority_channel_in_id →
             alookup st'.channels_by_id old.priority_channel_in_id = none)
         ∧ st'.peers = st.peers))
    ∧ (alookup st.channels_by_peers peer_id = none →
      create_channel der st local_id peer_id pk date context
        = .ok (create_channel_insert der st local_id peer_id pk date context peer)
      ∧ (let nc := AdnlChannel.new der local_id peer_id peer.channel_key pk date context
         let st' := create_channel_insert der st local_id peer_id pk date context peer
         alookup st'.channels_by_peers peer_id = some nc
         ∧ alookup st'.channels_by_id nc.priority_channel_in_id = some (true, nc)
         ∧ (nc.ordinary_channel_in_id ≠ nc.priority_channel_in_id →
             alookup st'.channels_by_id nc.ordinary_channel_in_id = some (false, nc))
         ∧ st'.peers = st.peers)) := by
  refine ⟨?_, ?_, ?_⟩
  · intro old hold hvalid
    constructor
    · intro hctx
      subst hctx
      simp [create_channel, h1, h2, hold, hvalid]
    · intro hctx
      subst hctx
      simp [create_channel, h1, h2, hold, hvalid]
  · intro old hold hvalid
    refine ⟨?_, ?_, ?_, ?_, ?_, ?_, rfl⟩
    · simp [create_channel, h1, h2, hold, hvalid, create_channel_swap]
    · simp only [create_channel_swap]
      rw [alookup_aset, if_pos rfl]
    · simp only [create_channel_swap]
      rw [alookup_aset, if_pos rfl]
    · intro hne
      simp only [create_channel_swap]
      rw [alookup_aset, if_neg (Ne.symm hne), alookup_aset, if_pos rfl]
    · intro hne1 hne2
      simp only [create_channel_swap]
      rw [alookup_aset, if_neg (Ne.symm hne2), alookup_aset, if_neg (Ne.symm hne1)]
      exact alookup_adel_adel_left _ _ _
    · intro hne1 hne2
      simp only [create_channel_swap]
      rw [alookup_aset, if_neg (Ne.symm hne2), alookup_aset, if_neg (Ne.symm hne1)]
      exact alookup_adel_adel_right _ _ _
  · intro hnone
    refine ⟨?_, ?_, ?_, ?_, rfl⟩
    · simp [create_channel, h1, h2, hnone, create_channel_insert]
    · simp only [create_channel_insert]
      rw [alookup_aset, if_pos rfl]
    · simp only [create_channel_insert]
      rw [alookup_aset, if_pos rfl]
    · intro hne
      simp only [create_channel_insert]
      rw [alookup_aset, if_neg (Ne.symm hne), alookup_aset, if_pos rfl]

theorem deliver_packet_mem (h : PacketsHistory) (s : Nat)
    (hacc : (h.deliver_packet s).1 = true) : s ∈ (h.deliver_packet s).2.seen := by
  unfold PacketsHistory.deliver_packet at hacc ⊢
  by_cases h1 : s > h.seqno
  · rw [if_pos h1]
    exact List.mem_cons_self ..
  · rw [if_neg h1] at hacc ⊢
    by_cases h2 : s + historyWindow > h.seqno ∧ h.seen.contains s = false
    · rw [if_pos h2]
      exact List.mem_cons_self ..
    · rw [if_neg h2] at hacc
      simp at hacc

theorem history_setHistory (s : PeerState) (p : Bool) (h : PacketsHistory) :
    (s.setHistory p h).history p = h := by
  cases p <;> simp [PeerState.history, PeerState.setHistory]

theorem confirm_seqno_peer (peer : AdnlPeer) (cs : Option Nat) (prio : Bool) :
    (check_packet_confirm_seqno peer cs prio).2 = peer := by
  unfold check_packet_confirm_seqno
  cases cs with
  | none => rfl
  | some c =>
    dsimp only
    split <;> rfl

theorem seqnos_accept_mem (opts : AdnlNodeOptions) (peer : AdnlPeer) (s : Nat)
    (cs : Option Nat) (prio : Bool) (p' : AdnlPeer)
    (hen : opts.packet_history_enabled = true)
    (hres : check_packet_seqnos opts peer (some s) cs prio = (.ok true, p')) :
    s ∈ (p'.receiver_state.history prio).seen := by
  simp only [check_packet_seqnos, hen, if_true] at hres
  by_cases hacc : ((peer.receiver_state.history prio).deliver_packet s).1 = false
  · rw [if_pos hacc] at hres
    simp at hres
  · rw [if_neg hacc] at hres
    have hpeer' := congrArg Prod.snd hres
    rw [confirm_seqno_peer] at hpeer'
    dsimp only at hpeer'
    rw [← hpeer']
    rw [history_setHistory]
    exact deliver_packet_mem _ _ (by revert hacc; cases hb :
      ((peer.receiver_state.history prio).deliver_packet s).1 <;> simp)

theorem set_peer_eq (st : NodeState) (local_id peer_id : Nat) (p : AdnlPeer)
    (pm : List (Nat × AdnlPeer)) (h : alookup st.peers local_id = some pm) :
    set_peer st local_id peer_id p
      = with_peers st (aset st.peers local_id (aset pm peer_id p)) := by
  simp only [set_peer, h, with_peers]

theorem stage3_accept (st : NodeState) (local_id peer_id : Nat) (peer : AdnlPeer)
    (sq cs : Option Nat) (prio : Bool) (res : Nat) (st' : NodeState)
    (msgs : List Message)
    (h : check_packet_stage3 st local_id peer_id peer sq cs prio
      = (.ok (some res), st', msgs)) :
    ∃ p', check_packet_seqnos st.options peer sq cs prio = (.ok true, p')
      ∧ st' = set_peer st local_id peer_id p' := by
  simp only [check_packet_stage3] at h
  cases hr1 : (check_packet_seqnos st.options peer sq cs prio).1 with
  | error e =>
    rw [hr1] at h
    simp at h
  | ok b =>
    cases b with
    | false =>
      rw [hr1] at h
      simp at h
    | true =>
      rw [hr1] at h
      refine ⟨(check_packet_seqnos st.options peer sq cs prio).2, ?_, ?_⟩
      · rw [← hr1]
      · simp only [Prod.mk.injEq] at h
        exact h.2.1.symm

theorem stage2_accept (env : CheckEnv) (st : NodeState)
    (packet : IncomingPacketContents) (local_id peer_id : Nat)
    (check_signature from_channel priority : Bool) (now : Nat) (res : Nat)
    (st' : NodeState) (msgs : List Message)
    (h : check_packet_stage2 env st packet local_id peer_id check_signature
      from_channel priority now = (.ok (some res), st', msgs)) :
    ∃ pm peer1, alookup st.peers local_id = some pm
      ∧ check_packet_stage3 st local_id peer_id peer1 packet.seqno
          packet.confirm_seqno priority = (.ok (some res), st', msgs) := by
  unfold check_packet_stage2 at h
  cases hpm : alookup st.peers local_id with
  | none =>
    rw [hpm] at h
    simp at h
  | some pm =>
    rw [hpm] at h
    dsimp only at h
    by_cases hg : from_channel ∧ (alookup st.channels_by_peers peer_id).isNone
    · rw [if_pos hg] at h
      simp at h
    · rw [if_neg hg] at h
      cases hpeer : alookup pm peer_id with
      | none =>
        rw [hpeer] at h
        simp at h
      | some peer =>
        rw [hpeer] at h
        dsimp only at h
        cases hsig : (if check_signature then
            verifySignature env packet.signature peer.full_id false
          else .ok ()) with
        | error e =>
          rw [hsig] at h
          simp at h
        | ok u =>
          rw [hsig] at h
          dsimp only at h
          cases hrd : packet.reinit_dates with
          | none =>
            rw [hrd] at h
            exact ⟨pm, peer, rfl, h⟩
          | some rd =>
            rw [hrd] at h
            dsimp only at h
            cases hr : (check_packet_reinit_dates st.options peer rd.1 rd.2 now).1 with
            | error e =>
              rw [hr] at h
              simp at h
            | ok u2 =>
              rw [hr] at h
              exact ⟨pm, (check_packet_reinit_dates st.options peer rd.1 rd.2 now).2.1,
                rfl, h⟩

theorem add_peer_ok_options (nf : Option (PeerContext → Nat → Nat → Bool))
    (st : NodeState) (ctx : PeerContext) (l p ip fid fk : Nat) (b : Bool)
    (st' : NodeState) (h : add_peer nf st ctx l p ip fid fk = .ok (b, st')) :
    st'.options = st.options := by
  unfold add_peer at h
  split at h
  · simp only [Except.ok.injEq, Prod.mk.injEq] at h
    rw [← h.2]
  · split at h
    · simp only [Except.ok.injEq, Prod.mk.injEq] at h
      rw [← h.2]
    · split at h
      · simp at h
      · split at h
        · simp only [Except.ok.injEq, Prod.mk.injEq] at h
          rw [← h.2]
        · simp only [Except.ok.injEq, Prod.mk.injEq] at h
          rw [← h.2]

theorem check_accept (env : CheckEnv) (st : NodeState)
    (packet : IncomingPacketContents) (local_id : Nat) (peer_id : Option Nat)
    (priority : Bool) (now : Nat) (res : Nat) (st' : NodeState) (msgs : List Message)
    (h : check_packet env st packet local_id peer_id priority now
      = (.ok (some res), st', msgs)) :
    ∃ st0 pid csig fch, st0.options = st.options
      ∧ check_packet_stage2 env st0 packet local_id pid csig fch priority now
          = (.ok (some res), st', msgs) := by
  unfold check_packet at h
  cases peer_id with
  | some pid =>
    dsimp only at h
    by_cases hf : (packet.from_full.isSome || packet.from_short.isSome) = true
    · rw [if_pos hf] at h
      simp at h
    · rw [if_neg hf] at h
      exact ⟨st, pid, true, true, rfl, h⟩
  | none =>
    dsimp only at h
    cases hff : packet.from_full with
    | some public_key =>
      rw [hff] at h
      dsimp only at h
      by_cases hmm : (match packet.from_short with
          | some i => env.compute_short_id public_key != i
          | none => false) = true
      · rw [if_pos hmm] at h
        simp at h
      · rw [if_neg hmm] at h
        cases hsig : verifySignature env packet.signature public_key
            st.options.packet_signature_required with
        | error e =>
          rw [hsig] at h
          simp at h
        | ok u =>
          rw [hsig] at h
          dsimp only at h
          cases haddr : packet.address with
          | none =>
            rw [haddr] at h
            exact ⟨st, env.compute_short_id public_key, false, false, rfl, h⟩
          | some list =>
            rw [haddr] at h
            dsimp only at h
            cases hpa : env.parse_address list st.options.clock_tolerance_sec with
            | none =>
              rw [hpa] at h
              simp at h
            | some ip =>
              rw [hpa] at h
              dsimp only at h
              cases hap : add_peer env.node_filter st .adnlPacket local_id
                  (env.compute_short_id public_key) ip public_key env.fresh_key with
              | error e =>
                rw [hap] at h
                simp at h
              | ok r =>
                rw [hap] at h
                dsimp only at h
                exact ⟨r.2, env.compute_short_id public_key, false, false,
                  add_peer_ok_options _ _ _ _ _ _ _ _ r.1 r.2
                    (by rw [hap]), h⟩
    | none =>
      rw [hff] at h
      dsimp only at h
      cases hfs : packet.from_short with
      | some pid =>
        rw [hfs] at h
        exact ⟨st, pid, true, false, rfl, h⟩
      | none =>
        rw [hfs] at h
        simp at h

/-- C3 (amended): inbound, when `packet_history_enabled` is on and the
packet carries a seqno, every packet accepted by `check_packet` has that
seqno recorded in the peer's receiver history for the packet's priority
class; outbound, every packet built by `send_packet` bumps the peer's
sender history seqno for the effectively chosen priority class and carries
the bumped value, regardless of configuration options. -/
theorem c3_history_updates :
    (∀ (env : CheckEnv) (st : NodeState) (packet : IncomingPacketContents)
      (local_id : Nat) (peer_id : Option Nat) (priority : Bool) (now : Nat)
      (pid : Nat) (st' : NodeState) (msgs : List Message),
      check_packet env st packet local_id peer_id priority now
          = (.ok (some pid), st', msgs) →
      st.options.packet_history_enabled = true →
      ∀ s, packet.seqno = some s →
      ∃ pm p, alookup st'.peers local_id = some pm ∧ alookup pm pid = some p
        ∧ s ∈ (p.receiver_state.history priority).seen)
    ∧ (∀ (st : NodeState) (local_id peer_id : Nat) (signer : MessageSigner)
      (messages : List Message) (pm : List (Nat × AdnlPeer)) (peer : AdnlPeer)
      (st' : NodeState) (pkt : PacketToSend),
      alookup st.peers local_id = some pm → alookup pm peer_id = some peer →
      send_packet st local_id peer_id signer messages = .ok (st', pkt) →
      ∃ pm' p', alookup st'.peers local_id = some pm' ∧ alookup pm' peer_id = some p'
        ∧ (p'.sender_state.history pkt.framing.priorityClass).seqno
            = (peer.sender_state.history pkt.framing.priorityClass).seqno + 1
        ∧ pkt.contents.seqno
            = (p'.sender_state.history pkt.framing.priorityClass).seqno) := by
  constructor
  · intro env st packet local_id peer_id priority now pid st' msgs h hen s hs
    obtain ⟨st0, pid2, csig, fch, hopts, h2⟩ := check_accept env st packet local_id
      peer_id priority now pid st' msgs h
    obtain ⟨pm, peer1, hpm, h3⟩ := stage2_accept env st0 packet local_id pid2 csig
      fch priority now pid st' msgs h2
    obtain ⟨p', hseq, hst'⟩ := stage3_accept st0 local_id pid2 peer1 packet.seqno
      packet.confirm_seqno priority pid st' msgs h3
    rw [hs] at hseq
    have hen0 : st0.options.packet_history_enabled = true := by rw [hopts]; exact hen
    have hmem := seqnos_accept_mem st0.options peer1 s packet.confirm_seqno priority
      p' hen0 hseq
    have hpid : pid2 = pid := by
      simp only [check_packet_stage3] at h3
      cases hr1 : (check_packet_seqnos st0.options peer1 packet.seqno
          packet.confirm_seqno priority).1 with
      | error e =>
        rw [hr1] at h3
        simp at h3
      | ok b =>
        cases b with
        | false =>
          rw [hr1] at h3
          simp at h3
        | true =>
          rw [hr1] at h3
          simp only [Prod.mk.injEq, Except.ok.injEq, Option.some.injEq] at h3
          exact h3.1
    subst hpid
    rw [hst', set_peer_eq st0 local_id pid2 p' pm hpm]
    refine ⟨aset pm pid2 p', p', ?_, ?_, hmem⟩
    · simp only [with_peers]
      rw [alookup_aset, if_pos rfl]
    · rw [alookup_aset, if_pos rfl]
  · intro st local_id peer_id signer messages pm peer st' pkt h1 h2 hsend
    simp only [send_packet, h1, h2] at hsend
    cases signer with
    | random k =>
      simp only [Except.ok.injEq, Prod.mk.injEq] at hsend
      obtain ⟨hst', hpkt⟩ := hsend
      refine ⟨aset pm peer_id (bump_sender peer false), bump_sender peer false,
        ?_, ?_, ?_, ?_⟩
      · rw [← hst']
        exact alookup_aset_self st.peers local_id (aset pm peer_id (bump_sender peer false))
      · exact alookup_aset_self pm peer_id (bump_sender peer false)
      · rw [← hpkt]
        rfl
      · rw [← hpkt]
        rfl
    | channel ch p =>
      dsimp only at hsend
      by_cases hc : (peer.receiver_state.history p).seqno = 0
          ∧ (peer.sender_state.history true).seqno > MAX_PRIORITY_ATTEMPTS
      · rw [if_pos hc] at hsend
        simp only [Except.ok.injEq, Prod.mk.injEq] at hsend
        obtain ⟨hst', hpkt⟩ := hsend
        refine ⟨aset pm peer_id (bump_sender peer false), bump_sender peer false,
          ?_, ?_, ?_, ?_⟩
        · rw [← hst']
          exact alookup_aset_self st.peers local_id
            (aset pm peer_id (bump_sender peer false))
        · exact alookup_aset_self pm peer_id (bump_sender peer false)
        · rw [← hpkt]
          rfl
        · rw [← hpkt]
          rfl
      · rw [if_neg hc] at hsend
        simp only [Except.ok.injEq, Prod.mk.injEq] at hsend
        obtain ⟨hst', hpkt⟩ := hsend
        refine ⟨aset pm peer_id (bump_sender peer p), bump_sender peer p,
          ?_, ?_, ?_, ?_⟩
        · rw [← hst']
          exact alookup_aset_self st.peers local_id (aset pm peer_id (bump_sender peer p))
        · exact alookup_aset_self pm peer_id (bump_sender peer p)
        · rw [← hpkt]
          cases p <;> rfl
        · rw [← hpkt]
          cases p <;> rfl

/-! ### Concrete fixtures used by witnesses and counterexamples -/

def optsD : AdnlNodeOptions :=
  { query_max_timeout_ms := 5000, clock_tolerance_sec := 60,
    packet_history_enabled := false, packet_signature_required := true,
    force_use_priority_channels := true }

def peer0 : AdnlPeer := AdnlPeer.new 10 42 77 5

def ch0 : AdnlChannel :=
  { local_id := 1, peer_id := 2, channel_key := 5, peer_channel_public_key := 7,
    peer_channel_date := 3, ordinary_channel_in_id := 100,
    priority_channel_in_id := 101, ready := false, drop_timeout := 0 }

def st0 : NodeState :=
  { ip_address := 9, options := optsD, keystore := [(1, 11)],
    peers := [(1, [(2, peer0)])],
    channels_by_id := [(100, (false, ch0)), (101, (true, ch0))],
    channels_by_peers := [(2, ch0)], start_time := 10 }

def der0 : ChannelIdDerivation := ⟨fun p _ _ _ _ => if p then 201 else 200⟩

def envD : CheckEnv :=
  { node_filter := none, compute_short_id := fun k => k,
    extract_ok := fun _ => true, verify := fun _ _ => true,
    parse_address := fun a _ => some a, fresh_key := 123 }

def pkt5 : IncomingPacketContents :=
  { from_full := none, from_short := some 2, address := none, seqno := some 5,
    confirm_seqno := none, reinit_dates := none, signature := none }

def stH : NodeState :=
  { st0 with options := { optsD with packet_history_enabled := true } }

def ch1 : AdnlChannel := { ch0 with ready := true }

def st1 : NodeState :=
  { st0 with
    channels_by_peers := [(2, ch1)],
    channels_by_id := [(100, (false, ch1)), (101, (true, ch1))] }

def sendEnv0 : SendEnv :=
  { serialize := fun _ => List.replicate 2049 0, sha256 := fun _ => [7] }

/-- C3 witness: the inbound half of the claim theorem applied at a
concrete accepted packet with the history option enabled. -/
theorem c3_history_updates_witness :
    ∃ pm p, alookup ((check_packet envD stH pkt5 1 none false 100).2.1).peers 1 = some pm
      ∧ alookup pm 2 = some p ∧ 5 ∈ (p.receiver_state.history false).seen :=
  c3_history_updates.1 envD stH pkt5 1 none false 100 2
    (check_packet envD stH pkt5 1 none false 100).2.1
    (check_packet envD stH pkt5 1 none false 100).2.2 rfl rfl 5 rfl

/-- C3 counterexample: with the default `packet_history_enabled = false`,
a packet carrying a seqno is accepted yet the peer's receiver state —
histories included — is left exactly as it was, refuting the claim's
"regardless of configuration options". -/
theorem c3_history_updates_counterexample :
    (check_packet envD st0 pkt5 1 none false 100).1 = .ok (some 2)
    ∧ st0.options.packet_history_enabled = false
    ∧ pkt5.seqno = some 5
    ∧ ((alookup ((check_packet envD st0 pkt5 1 none false 100).2.1).peers 1).bind
        (fun pm => alookup pm 2)).map (fun p => p.receiver_state)
      = some peer0.receiver_state :=
  ⟨rfl, rfl, rfl, rfl⟩

/-- C4 witness: the claim theorem applied at a concrete valid channel with
context Confirm. -/
theorem c4_create_channel_witness :
    create_channel der0 st0 1 2 7 3 .confirmChannel = .ok (set_channel_ready st0 2 ch0) :=
  ((c4_create_channel der0 st0 1 2 7 3 .confirmChannel [(2, peer0)] peer0 rfl rfl).1
    ch0 rfl rfl).1 rfl

/-- C4 counterexample: a still-valid channel together with context Create
falls into the claim's "otherwise" branch, which demands a fresh channel
and the removal of the old in-id entries; the code instead returns with no
state change at all and the old entries remain. -/
theorem c4_create_channel_counterexample :
    create_channel der0 st0 1 2 7 3 .createChannel = .ok st0
    ∧ ch0.is_still_valid 7 3 = true
    ∧ ChannelCreationContext.createChannel ≠ ChannelCreationContext.confirmChannel
    ∧ alookup st0.channels_by_id ch0.ordinary_channel_in_id = some (false, ch0)
    ∧ alookup st0.channels_by_peers 2 = some ch0 :=
  ⟨rfl, rfl, by decide, rfl, rfl⟩

/-- C6 witness: the claim theorem applied at a concrete peer and channel. -/
theorem c6_send_packet_demotion_witness :
    ((send_packet st0 1 2 (.channel ch0 true) []).map (fun r => r.2.framing))
      = .ok (PacketSigner.channel
          (if (peer0.receiver_state.history true).seqno = 0
              ∧ (peer0.sender_state.history true).seqno > MAX_PRIORITY_ATTEMPTS
           then false else true)) :=
  (c6_send_packet_demotion st0 1 2 ch0 [] [(2, peer0)] peer0 rfl rfl).1

/-- C7 witness: the claim theorem applied at a concrete channel whose drop
timeout is still zero. -/
theorem c7_query_drop_witness :
    query_raw_on_dropped st0 1 2 50 99
      = .ok (none, set_channel st0 2 ch0
          { ch0 with drop_timeout := 50 + st0.options.query_max_timeout_ms }) :=
  (c7_query_drop st0 1 2 50 99 [(2, peer0)] peer0 ch0 rfl rfl rfl).1 rfl

/-- C10 witness: the claim theorem applied at the node's own identity. -/
theorem c10_add_peer_witness :
    add_peer none st0 .dht 1 1 9 77 5 = .ok (false, st0) :=
  (c10_add_peer none st0 .dht 1 1 9 77 5).1 ⟨rfl, rfl⟩

/-- The shape of a message as seen by the transfer reassembler: for a
`Part`, its `total_size`, `offset` and payload length. -/
def partShape : Message → Nat × Nat × Nat
  | .part _ total off d => (total, off, d.length)
  | _ => (0, 0, 0)

theorem partShape_part (h : List Nat) (t o : Nat) (d : List Nat) :
    partShape (.part h t o d) = (t, o, d.length) := rfl

theorem send_packet_ok (st : NodeState) (l p : Nat) (signer : MessageSigner)
    (messages : List Message) (pm : List (Nat × AdnlPeer)) (peer : AdnlPeer)
    (h1 : alookup st.peers l = some pm) (h2 : alookup pm p = some peer) :
    ∃ st' pkt, send_packet st l p signer messages = .ok (st', pkt)
      ∧ pkt.contents.messages = messages
      ∧ ∃ pm' peer', alookup st'.peers l = some pm' ∧ alookup pm' p = some peer' := by
  simp only [send_packet, h1, h2]
  cases signer with
  | random k =>
    dsimp only
    refine ⟨_, _, rfl, rfl, aset pm p (bump_sender peer false),
      bump_sender peer false, ?_, ?_⟩
    · exact alookup_aset_self ..
    · exact alookup_aset_self ..
  | channel ch pr =>
    dsimp only
    by_cases hc : (peer.receiver_state.history pr).seqno = 0
        ∧ (peer.sender_state.history true).seqno > MAX_PRIORITY_ATTEMPTS
    · rw [if_pos hc]
      refine ⟨_, _, rfl, rfl, aset pm p (bump_sender peer false),
        bump_sender peer false, ?_, ?_⟩
      · exact alookup_aset_self ..
      · exact alookup_aset_self ..
    · rw [if_neg hc]
      refine ⟨_, _, rfl, rfl, aset pm p (bump_sender peer pr),
        bump_sender peer pr, ?_, ?_⟩
      · exact alookup_aset_self ..
      · exact alookup_aset_self ..

theorem send_message_parts_step (fuel0 fuel : Nat) (hfuel : fuel0 = fuel + 1)
    (st : NodeState) (l p : Nat) (signer : MessageSigner) (data hash : List Nat)
    (offset : Nat) (acc : List PacketToSend) (st' : NodeState) (pkt : PacketToSend)
    (hoff : offset < data.length)
    (hsp : send_packet st l p signer
      [(build_part_message data hash MAX_ADNL_MESSAGE_SIZE offset).1] = .ok (st', pkt)) :
    send_message_parts fuel0 st l p signer data hash offset acc
      = send_message_parts fuel st' l p signer data hash
          (build_part_message data hash MAX_ADNL_MESSAGE_SIZE offset).2 (acc ++ [pkt]) := by
  subst hfuel
  simp only [send_message_parts]
  rw [if_pos hoff, hsp]

theorem send_message_parts_stop (fuel0 fuel : Nat) (hfuel : fuel0 = fuel + 1)
    (st : NodeState) (l p : Nat) (signer : MessageSigner) (data hash : List Nat)
    (offset : Nat) (acc : List PacketToSend) (hoff : ¬ offset < data.length) :
    send_message_parts fuel0 st l p signer data hash offset acc = .ok (st, acc) := by
  subst hfuel
  simp only [send_message_parts]
  rw [if_neg hoff]

/-- C1: the splitting path of `send_message` does not tile the serialized
message.  `build_part_message` advances the offset by `offset + len`
instead of setting it to the slice end `len`, so a message serializing to
2049 bytes emits exactly two `Part`s carrying bytes 0..1024 and 1024..2048
and then stops (the offset jumps to 1024 + 2048 = 3072 ≥ 2049): the final
byte at offset 2048 is never sent, although every emitted part claims
`total_size = 2049`. -/
theorem c1_send_message_part_gap :
    (Except.map (fun r => r.2.map (fun p => p.contents.messages.map partShape))
        (send_message sendEnv0 st1 1 2 (Message.custom (List.replicate 2037 0)) true 5))
      = .ok [[(2049, 0, 1024)], [(2049, 1024, 1024)]]
    ∧ 2048 < 2049
    ∧ ∀ pr ∈ [((0 : Nat), (1024 : Nat)), (1024, 1024)],
        ¬ (pr.1 ≤ 2048 ∧ 2048 < pr.1 + pr.2) := by
  refine ⟨?_, by decide, by decide⟩
  have e1 : alookup st1.peers 1 = some [(2, peer0)] := rfl
  have e2 : alookup [(2, peer0)] 2 = some peer0 := rfl
  have ek : alookup st1.keystore 1 = some 11 := rfl
  have ec : alookup st1.channels_by_peers 2 = some ch1 := rfl
  have er : ch1.ready = true := rfl
  have hD : sendEnv0.serialize (Message.custom (List.replicate 2037 0))
      = List.replicate 2049 0 := rfl
  simp only [send_message, e1, e2, ek, ec, er, if_true, hD, List.length_replicate]
  rw [if_neg (by norm_num [MSG_CUSTOM_SIZE, MAX_ADNL_MESSAGE_SIZE])]
  rw [if_neg (show ¬ (false = true) by simp)]
  set R := List.replicate (α := Nat) 2049 0 with hR
  set H0 := sendEnv0.sha256 R with hH0
  have hRlen : R.length = 2049 := by rw [hR, List.length_replicate]
  obtain ⟨st', pkt1, hsp1, hmsg1, pm1, peer1, h1', h2'⟩ :=
    send_packet_ok st1 1 2 (.channel ch1 true)
      [(build_part_message R H0 MAX_ADNL_MESSAGE_SIZE 0).1] [(2, peer0)] peer0 e1 e2
  rw [send_message_parts_step (2049 + 1) 2049 rfl st1 1 2 _ R H0 0 [] st' pkt1
    (by rw [hRlen]; norm_num) hsp1]
  have ho1 : (build_part_message R H0 MAX_ADNL_MESSAGE_SIZE 0).2 = 1024 := by
    simp only [build_part_message, hRlen, MAX_ADNL_MESSAGE_SIZE]
    norm_num
  rw [ho1]
  obtain ⟨st'', pkt2, hsp2, hmsg2, pm2, peer2, h1'', h2''⟩ :=
    send_packet_ok st' 1 2 (.channel ch1 true)
      [(build_part_message R H0 MAX_ADNL_MESSAGE_SIZE 1024).1] pm1 peer1 h1' h2'
  rw [send_message_parts_step 2049 2048 (by norm_num) st' 1 2 _ R H0 1024 ([] ++ [pkt1])
    st'' pkt2 (by rw [hRlen]; norm_num) hsp2]
  have ho2 : (build_part_message R H0 MAX_ADNL_MESSAGE_SIZE 1024).2 = 3072 := by
    simp only [build_part_message, hRlen, MAX_ADNL_MESSAGE_SIZE]
    norm_num
  rw [ho2]
  rw [send_message_parts_stop 2048 2047 (by norm_num) st'' 1 2 _ R H0 3072 _
    (by rw [hRlen]; norm_num)]
  have hb1 : (build_part_message R H0 MAX_ADNL_MESSAGE_SIZE 0).1
      = Message.part H0 2049 0 ((R.drop 0).take 1024) := by
    simp only [build_part_message, hRlen, MAX_ADNL_MESSAGE_SIZE]
    norm_num
  have hb2 : (build_part_message R H0 MAX_ADNL_MESSAGE_SIZE 1024).1
      = Message.part H0 2049 1024 ((R.drop 1024).take 1024) := by
    simp only [build_part_message, hRlen, MAX_ADNL_MESSAGE_SIZE]
    norm_num
  simp [Except.map, hmsg1, hmsg2, hb1, hb2, partShape_part, hRlen]

end TinyAdnl.Node
